import Mathlib

/-!
Verification of the availability-rule engine, row analyzer, reconciler and
booking write protocol of the dj-availability-checker repository, as a
shallow embedding in Lean.  Python strings are modelled as Lean `String`
(`List Char` data); Python string methods (`strip`, `lower`, `upper`,
`split`, `replace`, `in`, `int()`) are modelled for the ASCII range, which
covers every cell token the matrix uses.  Python `int` counters are
modelled as `Int`.
-/

set_option maxRecDepth 100000

/-! ### Python string primitives -/

/-- ASCII whitespace test, matching the characters Python `str.strip` removes. -/
def isWsC (c : Char) : Bool := c.toNat = 32 || (9 ≤ c.toNat && c.toNat ≤ 13)

/-- ASCII decimal digit test. -/
def isDigitC (c : Char) : Bool := 48 ≤ c.toNat && c.toNat ≤ 57

/-- ASCII lower-casing of one character (Python `str.lower` on ASCII input). -/
def lowerC (c : Char) : Char :=
  if 65 ≤ c.toNat ∧ c.toNat ≤ 90 then Char.ofNat (c.toNat + 32) else c

/-- ASCII upper-casing of one character (Python `str.upper` on ASCII input). -/
def upperC (c : Char) : Char :=
  if 97 ≤ c.toNat ∧ c.toNat ≤ 122 then Char.ofNat (c.toNat - 32) else c

/-- Python `str.lower`. -/
def pyLower (s : String) : String := ⟨s.data.map lowerC⟩

/-- Python `str.upper`. -/
def pyUpper (s : String) : String := ⟨s.data.map upperC⟩

/-- Drop leading ASCII whitespace. -/
def stripL (l : List Char) : List Char := l.dropWhile isWsC

/-- Drop trailing ASCII whitespace. -/
def stripR (l : List Char) : List Char := (l.reverse.dropWhile isWsC).reverse

/-- Python `str.strip`. -/
def pyStrip (s : String) : String := ⟨stripL (stripR s.data)⟩

/-- Split a character list at every occurrence of `sep` (Python `str.split(sep)`
for a one-character separator: empty pieces are kept). -/
def splitCharL (sep : Char) : List Char → List (List Char)
  | [] => [[]]
  | c :: rest =>
    if c = sep then [] :: splitCharL sep rest
    else
      match splitCharL sep rest with
      | h :: t => (c :: h) :: t
      | [] => [[c]]

/-- Python `s.split(sep)` for a one-character separator. -/
def pySplitChar (s : String) (sep : Char) : List String :=
  (splitCharL sep s.data).map (fun l => ⟨l⟩)

/-- Substring test on character lists (Python `needle in haystack`). -/
def hasSubL (needle : List Char) : List Char → Bool
  | [] => needle.isEmpty
  | c :: rest => needle.isPrefixOf (c :: rest) || hasSubL needle rest

/-- Python `needle in haystack` for strings. -/
def hasSubS (needle s : String) : Bool := hasSubL needle.data s.data

/-- Replace every (non-overlapping, left-to-right) occurrence of `pat` by `rep`,
with explicit fuel so the recursion is structural (Python `str.replace`). -/
def replaceL (pat rep : List Char) : Nat → List Char → List Char
  | 0, l => l
  | _ + 1, [] => []
  | fuel + 1, c :: rest =>
    if pat.isPrefixOf (c :: rest) ∧ pat ≠ [] then
      rep ++ replaceL pat rep fuel (List.drop (pat.length - 1) rest)
    else c :: replaceL pat rep fuel rest

/-- Python `s.replace(pat, rep)` (for the non-empty patterns the sources use). -/
def pyReplace (s pat rep : String) : String :=
  ⟨replaceL pat.data rep.data (s.data.length + 1) s.data⟩

/-- Numeric value of a digit list, most significant digit first. -/
def digitsVal (l : List Char) : Nat :=
  l.foldl (fun a c => a * 10 + (c.toNat - 48)) 0

/-- Parse a non-empty all-digit list, else fail. -/
def digitsVal? (l : List Char) : Option Nat :=
  if l ≠ [] ∧ l.all isDigitC then some (digitsVal l) else none

/-- Python `int(s)`: strip whitespace, optional sign, decimal digits. -/
def pyInt? (s : String) : Option Int :=
  match (pyStrip s).data with
  | [] => none
  | c :: rest =>
    if c = '-' then (digitsVal? rest).map (fun v => -(v : Int))
    else if c = '+' then (digitsVal? rest).map (fun v => (v : Int))
    else (digitsVal? (c :: rest)).map (fun v => (v : Int))

/-- Association-list lookup, modelling Python `dict.get`. -/
def lookupStr {α : Type} (l : List (String × α)) (k : String) : Option α :=
  (l.find? (fun p => p.1 == k)).map (fun p => p.2)

/-! ### gig_booking_manager: TBA / BOOKED cell arithmetic -/

/-- Embedding of `count_booked_events` (gig_booking_manager.py):
`'' → 0`, `'BOOKED' → 1`, `'BOOKED x N' → int(N)` (0 on parse failure),
anything else `→ 0`. -/
def count_booked_events (cellValue : String) : Int :=
  if pyStrip cellValue = "" then 0
  else if pyUpper (pyStrip cellValue) = "BOOKED" then 1
  else if ("BOOKED X ".data).isPrefixOf (pyUpper (pyStrip cellValue)).data then
    match pyInt? (pyReplace (pyUpper (pyStrip cellValue)) "BOOKED X " "") with
    | some n => n
    | none => 0
  else 0

/-- Embedding of `increment_booked` (gig_booking_manager.py). -/
def increment_booked (currentValue : String) : String :=
  if pyStrip currentValue = "" then "BOOKED"
  else if pyUpper (pyStrip currentValue) = "BOOKED" then "BOOKED x 2"
  else if ("BOOKED X ".data).isPrefixOf (pyUpper (pyStrip currentValue)).data then
    match pyInt? (pyReplace (pyUpper (pyStrip currentValue)) "BOOKED X " "") with
    | some n => "BOOKED x " ++ (n + 1).repr
    | none => "BOOKED x 2"
  else currentValue

/-- Increment step applied to the single non-AAG part inside `increment_tba`. -/
def incrementTbaBookedPart (bp : String) : String :=
  if bp = "BOOKED" then "BOOKED x 2"
  else if ("BOOKED X ".data).isPrefixOf bp.data then
    match pyInt? (pyReplace bp "BOOKED X " "") with
    | some n => "BOOKED x " ++ (n + 1).repr
    | none => "BOOKED x 2"
  else "BOOKED x 2"

/-- Join a list of strings with `", "` (Python `", ".join`). -/
def joinCommaSpace : List String → String
  | [] => ""
  | [s] => s
  | s :: rest => s ++ ", " ++ joinCommaSpace rest

/-- Embedding of `increment_tba` (gig_booking_manager.py): comma-split the cell,
separate the `AAG` parts from the booked part, increment the booked part and
re-attach the `AAG` parts. -/
def increment_tba (currentValue : String) : String :=
  if pyStrip currentValue = "" then "BOOKED"
  else
    match ((pySplitChar currentValue ',').map pyStrip).filter
        (fun p => ¬ pyUpper p = "AAG") with
    | [] =>
      "BOOKED, " ++ joinCommaSpace
        (((pySplitChar currentValue ',').map pyStrip).filter
          (fun p => pyUpper p = "AAG"))
    | [bp] =>
      if ((pySplitChar currentValue ',').map pyStrip).filter
          (fun p => pyUpper p = "AAG") ≠ [] then
        incrementTbaBookedPart (pyUpper bp) ++ ", " ++ joinCommaSpace
          (((pySplitChar currentValue ',').map pyStrip).filter
            (fun p => pyUpper p = "AAG"))
      else incrementTbaBookedPart (pyUpper bp)
    | bp :: _ :: _ =>
      if ((pySplitChar currentValue ',').map pyStrip).filter
          (fun p => pyUpper p = "AAG") ≠ [] then
        bp ++ ", " ++ joinCommaSpace
          (((pySplitChar currentValue ',').map pyStrip).filter
            (fun p => pyUpper p = "AAG"))
      else bp

/-! ### dj_core: availability rule engine -/

/-- The Python expression `date_obj and date_obj.weekday() >= 5 if date_obj
else False` used by `check_dj_availability`, and `is_weekend` (dj_core.py). -/
def weekendFlag : Option Nat → Bool
  | some w => decide (w ≥ 5)
  | none => false

/-- Embedding of the body of `check_dj_availability` (dj_core.py, lines 474-556)
after the initial `strip`, with the Python fall-through control flow flattened
into one if-chain.  `value` is the stripped cell value, `dateWeekday` the
`date_obj.weekday()` value if a date was supplied, `year` the year string if
supplied. -/
def checkCore (djName value : String) (dateWeekday : Option Nat) (isBold : Bool)
    (year : Option String) : Bool × Bool :=
  if djName = "Henry" ∧ weekendFlag dateWeekday = false ∧ value = "" then (false, true)
  else if djName = "Henry" ∧ weekendFlag dateWeekday = false ∧ pyLower value = "out" then
    (false, false)
  else if djName = "Stephanie" ∧ year = some "2026" ∧ value = "" then (false, false)
  else if djName = "Stephanie" ∧ year = some "2027" ∧ weekendFlag dateWeekday = false ∧
      value = "" then (false, false)
  else if djName = "Stephanie" ∧ year = some "2027" ∧ weekendFlag dateWeekday = false ∧
      pyLower value = "out" then (false, false)
  else if pyLower value = "booked" ∨ pyLower value = "backup" then (false, false)
  else if pyLower value = "reserved" then (false, false)
  else if djName = "Felipe" ∧ (year = some "2026" ∨ year = some "2027") then
    if value = "" then (false, true)
    else if pyLower value = "ok" then (true, true)
    else if pyLower value = "dad" ∨ pyLower value = "ok to backup" then (false, true)
    else if pyLower value = "out" ∨ pyLower value = "maxed" then (false, false)
    else (false, true)
  else if value = "" then
    if djName = "Stefano" then (false, false) else (true, true)
  else if pyLower value = "out" ∨ pyLower value = "maxed" then
    if djName = "Woody" ∧ weekendFlag dateWeekday = true ∧ isBold = false then (false, true)
    else (false, false)
  else if pyLower value = "ok to backup" then (false, true)
  else if pyLower value = "ok" then (true, true)
  else if djName = "Felipe" ∧ pyLower value = "dad" then (false, true)
  else if djName = "Stefano" ∧ pyLower value = "ok" then (true, true)
  else if pyLower value = "last" then (true, true)
  else (false, false)

/-- Embedding of `check_dj_availability` (dj_core.py): strip the raw cell value,
then apply the rule table.  Returns `(can_be_booked, can_be_backup)`. -/
def check_dj_availability (djName rawValue : String) (dateWeekday : Option Nat)
    (isBold : Bool) (year : Option String) : Bool × Bool :=
  checkCore djName (pyStrip rawValue) dateWeekday isBold year

/-! ### gig_booking_manager: can_backup -/

/-- Modelled from the spec: `KNOWN_CELL_VALUES` is imported from `dj_core` by
`gig_booking_manager.py` and `check_dj_gui.py` but the definition is absent
from the sources.  Section 4.1 of the spec gives the closed recognized set
(`out`, `booked`, `backup`, `maxed`, `ok to backup`, `ok`, `last`,
`reserved`, `stanford`), and section 4.2 additionally recognizes the
Felipe-specific `dad` status (required by the repository test
`test_felipe_dad_2026`, which expects `DAD` not to be rejected by the unknown
guard).  Lower-case, as the guards compare `value.lower()` against the set. -/
def KNOWN_CELL_VALUES : List String :=
  ["out", "booked", "backup", "maxed", "ok to backup", "ok", "last", "reserved",
   "stanford", "dad"]

/-- Embedding of `can_backup` (gig_booking_manager.py, lines 313-381):
upper-cased stripped cell value, unknown-value guard, universal rows, then
the per-DJ rules.  Returns `(can_backup, note)`. -/
def can_backup (djName cellValue : String) (isBold : Bool) (weekday : Nat)
    (year : Int) : Bool × Option String :=
  let value := pyUpper (pyStrip cellValue)
  let weekend : Bool := decide (weekday ≥ 5)
  if value ≠ "" ∧ ¬ KNOWN_CELL_VALUES.contains (pyLower value) then (false, none)
  else if value = "BOOKED" ∨ value = "BACKUP" ∨ value = "MAXED" ∨ value = "RESERVED" then
    (false, none)
  else if value = "STANFORD" ∨ value = "LAST" then (true, none)
  else if djName = "Henry" then
    if value = "OUT" then (false, none) else (true, none)
  else if djName = "Woody" then
    if value = "OUT" then
      if weekend = true ∧ isBold = false then (true, none) else (false, none)
    else (true, none)
  else if djName = "Paul" then
    if value = "OUT" then (false, none) else (true, none)
  else if djName = "Stefano" then
    if value = "OUT" then (false, none)
    else if value = "" then (true, some "check with Stefano")
    else (false, none)
  else if djName = "Felipe" then
    if year ≥ 2026 then
      if value = "" ∨ value = "OK" ∨ value = "DAD" ∨ value = "OK TO BACKUP" then (true, none)
      else (false, none)
    else if value = "OUT" then (false, none)
    else (true, none)
  else if djName = "Stephanie" then
    if year = 2026 then (false, none)
    else if year ≥ 2027 then
      if value = "OUT" ∨ value = "RESERVED" then (false, none)
      else if weekend = true ∧ value = "" then (true, none)
      else (false, none)
    else (false, none)
  else (false, none)


/-! ### dj_core: row analyzer -/

/-- Count contributed by one comma-clause of a TBA cell, as parsed inside the
first pass of `analyze_availability` (dj_core.py): a clause containing
`booked` contributes its `x N` multiplier (1 on parse failure, 1 without a
multiplier), a clause containing `aag` contributes 1. -/
def tbaEntryCount (entry : String) : Int :=
  if hasSubS "booked" (pyLower entry) then
    if hasSubS "x" (pyLower entry) then
      match pyInt? (pyStrip ((pySplitChar (pyLower entry) 'x').getD 1 "")) with
      | some m => m
      | none => 1
    else 1
  else if hasSubS "aag" (pyLower entry) then 1
  else 0

/-- Accumulator of the first pass of `analyze_availability`. -/
structure FirstPass where
  booked : Int
  tba : Int
  aag : Bool
deriving DecidableEq

/-- One step of the first pass of `analyze_availability` (dj_core.py): skip the
`Date` column, strip the `(BOLD)` annotation, flag an `AAG` reservation, count
a Stephanie `RESERVED` as booked, sum the TBA clauses, and count plain
`booked` / `aag` cells. -/
def firstPassStep (fp : FirstPass) (nv : String × String) : FirstPass :=
  if nv.1 = "Date" then fp
  else if nv.1 = "AAG" ∧
      hasSubS "reserved" (pyLower (pyReplace nv.2 " (BOLD)" "")) then
    { fp with aag := true }
  else if nv.1 = "Stephanie" ∧
      hasSubS "reserved" (pyLower (pyReplace nv.2 " (BOLD)" "")) then
    { fp with booked := fp.booked + 1 }
  else if nv.1 = "TBA" ∧
      (hasSubS "booked" (pyLower (pyReplace nv.2 " (BOLD)" "")) ∨
       hasSubS "aag" (pyLower (pyReplace nv.2 " (BOLD)" ""))) then
    { fp with
      booked := fp.booked +
        ((((pySplitChar (pyReplace nv.2 " (BOLD)" "") ',').map pyStrip).map
          tbaEntryCount).foldl (· + ·) 0),
      tba := fp.tba +
        ((((pySplitChar (pyReplace nv.2 " (BOLD)" "") ',').map pyStrip).map
          tbaEntryCount).foldl (· + ·) 0) }
  else if pyLower (pyReplace nv.2 " (BOLD)" "") = "booked" ∨
      hasSubS "aag" (pyLower (pyReplace nv.2 " (BOLD)" "")) then
    { fp with booked := fp.booked + 1 }
  else fp

/-- Accumulator of the second pass of `analyze_availability`. -/
structure SecondPass where
  backupCount : Int
  booking : List String
  backup : List String
deriving DecidableEq

/-- One step of the second pass of `analyze_availability` (dj_core.py): skip
`Date`, `TBA`, `AAG` and `Stephanie`, count `BACKUP` cells, and classify every
other non-`BOOKED` DJ through `check_dj_availability`. -/
def secondPassStep (dateWeekday : Option Nat) (year : Option String)
    (sp : SecondPass) (nv : String × String) : SecondPass :=
  if nv.1 = "Date" ∨ nv.1 = "TBA" ∨ nv.1 = "AAG" ∨ nv.1 = "Stephanie" then sp
  else
    let isBold := hasSubS "(BOLD)" nv.2
    let value := pyReplace nv.2 " (BOLD)" ""
    let vl := pyLower value
    if vl = "backup" then { sp with backupCount := sp.backupCount + 1 }
    else if ¬ vl = "booked" then
      let r := check_dj_availability nv.1 value dateWeekday isBold year
      { sp with
        booking := sp.booking ++ (if r.1 then [nv.1] else []),
        backup := sp.backup ++ (if r.2 then [nv.1] else []) }
    else sp

/-- The `AvailabilitySummary` record returned by `analyze_availability`. -/
structure Summary where
  bookedCount : Int
  availableSpots : Int
  availableBooking : List String
  availableBackup : List String
  tbaBookings : Int
  backupCount : Int
  aagReserved : Bool
deriving DecidableEq

/-- Embedding of `analyze_availability` (dj_core.py, lines 559-663): two passes
over the row, then the spot computation with the TBA / AAG subtractions and
the forced-zero rule when no backup coverage exists. -/
def analyze_availability (selectedData : List (String × String))
    (dateWeekday : Option Nat) (year : Option String) : Summary :=
  let fp := selectedData.foldl firstPassStep ⟨0, 0, false⟩
  let sp := selectedData.foldl (secondPassStep dateWeekday year) ⟨0, [], []⟩
  let s0 : Int := sp.booking.length
  let s1 := if fp.tba > 0 then max 0 (s0 - fp.tba) else s0
  let s2 := if fp.aag then max 0 (s1 - 1) else s1
  let s3 := if sp.backupCount = 0 ∧ sp.backup = [] then 0 else s2
  ⟨fp.booked, s3, sp.booking, sp.backup, fp.tba, sp.backupCount, fp.aag⟩

/-! ### gig_booking_manager: spots remaining and backup bookkeeping -/

/-- Modelled from the spec: `parse_tba_value` is imported from `dj_core` by
`gig_booking_manager.py` but its definition is absent from the sources.
Sections 4.3 and 4.5 of the spec require the same composite-aware,
comma-separated clause parsing the analyzer uses (`BOOKED` = 1,
`BOOKED x N` = N with parse failure treated as 1, `AAG` = 1), matching the
values pinned by `test_gig_booking_manager.py::TestTBAParsing`. -/
def parse_tba_value (s : String) : Int :=
  (((pySplitChar s ',').map pyStrip).map tbaEntryCount).foldl (· + ·) 0

/-- Modelled from the spec: the numeric `COLUMN_MAPS` dictionary is imported
from `dj_core` by `gig_booking_manager.py` but absent from the sources.  The
column layout follows the per-year letter maps `COLUMNS_2025` / `COLUMNS_2026`
/ `COLUMNS_2027` in dj_core.py (A=1, D=4, ...), matching the values pinned by
`test_gig_booking_manager.py::TestColumnMaps`. -/
def COLUMN_MAPS (year : Int) : Option (List (String × Nat)) :=
  if year = 2025 then
    some [("Date", 1), ("Henry", 4), ("Woody", 5), ("Paul", 6), ("Stefano", 7),
          ("Felipe", 8), ("TBA", 9), ("Stephanie", 11)]
  else if year = 2026 then
    some [("Date", 1), ("Henry", 4), ("Woody", 5), ("Paul", 6), ("Stefano", 7),
          ("Felipe", 8), ("TBA", 9), ("Stephanie", 11), ("AAG", 12)]
  else if year = 2027 then
    some [("Date", 1), ("Henry", 4), ("Woody", 5), ("Paul", 6), ("Stefano", 7),
          ("Stephanie", 8), ("TBA", 9), ("AAG", 10), ("Felipe", 12)]
  else none

/-- `COLUMN_MAPS.get(year, COLUMN_MAPS[2026])`, as written in
`calculate_spots_remaining` and `get_row_data`. -/
def columnMapsD (year : Int) : List (String × Nat) :=
  (COLUMN_MAPS year).getD
    [("Date", 1), ("Henry", 4), ("Woody", 5), ("Paul", 6), ("Stefano", 7),
     ("Felipe", 8), ("TBA", 9), ("Stephanie", 11), ("AAG", 12)]

/-- Embedding of `calculate_spots_remaining` (gig_booking_manager.py, lines
392-437): blank Henry/Woody/Paul count as available, Stefano never counts,
Felipe counts on `OK` from 2026 (blank before), Stephanie counts on a blank
weekend cell from 2027, minus the TBA bookings and an AAG `RESERVED` hold,
clamped at zero. -/
def calculate_spots_remaining (rowData : List (String × String)) (year : Int)
    (dateWeekday : Option Nat) : Int :=
  let colMap := columnMapsD year
  let get (dj : String) : String := pyUpper (pyStrip ((lookupStr rowData dj).getD ""))
  let a0 : Int :=
    (if get "Henry" = "" then 1 else 0) + (if get "Woody" = "" then 1 else 0) +
    (if get "Paul" = "" then 1 else 0)
  let a1 := if year ≥ 2026 then (if get "Felipe" = "OK" then a0 + 1 else a0)
    else (if get "Felipe" = "" then a0 + 1 else a0)
  let weekendOk : Bool := match dateWeekday with
    | some w => decide (w ≥ 5)
    | none => false
  let a2 := if year ≥ 2027 ∧ (lookupStr rowData "Stephanie").isSome ∧
      get "Stephanie" = "" ∧ weekendOk = true then a1 + 1 else a1
  let a3 := a2 - parse_tba_value ((lookupStr rowData "TBA").getD "")
  let a4 := if (lookupStr colMap "AAG").isSome ∧ (lookupStr rowData "AAG").isSome ∧
      get "AAG" = "RESERVED" then a3 - 1 else a3
  max 0 a4

/-- Embedding of `check_existing_backup` (gig_booking_manager.py): first DJ in
fixed order whose cell is `BACKUP`. -/
def check_existing_backup (rowData : List (String × String)) : Option String :=
  (["Henry", "Woody", "Paul", "Stefano", "Felipe", "Stephanie"].find?
    (fun dj => pyUpper (pyStrip ((lookupStr rowData dj).getD "")) == "BACKUP"))


/-! ### booking_comparator: three-way classification -/

/-- Discrepancy classification tags of `compare_systems` (booking_comparator.py). -/
inductive Tag where
  | MissingFromMatrix
  | MissingFromGigDb
  | MissingFromCalendar
  | DjMismatch
deriving DecidableEq

/-- Python `set(a) - set(b)` is non-empty (truthiness of the set difference). -/
def pySetSub (a b : List String) : Bool := a.any (fun x => !(b.contains x))

/-- Python equality of `sorted(set(a))` and `sorted(set(b))`: extensional set
equality of the two element collections. -/
def pySetEqL (a b : List String) : Bool := a.all (b.contains ·) && b.all (a.contains ·)

/-- First-matching primary classification of one divergent date in
`compare_systems` (booking_comparator.py, lines 418-432): `MissingFromMatrix`
when the difference is one-sided into the gig database and the matrix list is
empty, `MissingFromGigDb` symmetrically, `DjMismatch` otherwise. -/
def classifyPrimary (gig matrix : List String) : Tag :=
  if pySetSub gig matrix = true ∧ pySetSub matrix gig = false ∧ matrix = [] then
    Tag.MissingFromMatrix
  else if pySetSub matrix gig = true ∧ pySetSub gig matrix = false ∧ gig = [] then
    Tag.MissingFromGigDb
  else Tag.DjMismatch

/-- Embedding of the per-date classification of `compare_systems`
(booking_comparator.py, lines 382-437 and 459-470): `gig` / `matrix` / `cal`
are the per-date DJ lists of the three sources (`cal = none` when the run has
no calendar).  Returns the list of report categories the date appears under:
an in-sync date gets none; a divergent date gets its primary tag, and
additionally `MissingFromCalendar` when the gig set is non-empty, the
calendar set is empty, and the date was not put in the DJ-mismatch bucket
(the `already_reported` filter applied when printing the calendar section). -/
def classifyDate (gig matrix : List String) (cal : Option (List String)) : List Tag :=
  if (match cal with
      | some calL => pySetEqL gig matrix && pySetEqL matrix calL
      | none => pySetEqL gig matrix) = true then []
  else
    classifyPrimary gig matrix ::
    (if cal.isSome = true ∧ pySetSub gig (cal.getD []) = true ∧ cal.getD [] = [] ∧
        ¬ classifyPrimary gig matrix = Tag.DjMismatch then [Tag.MissingFromCalendar]
     else [])


/-! ### gig_booking_manager: the booking write protocol -/

/-- The booking fields `GigBookingManager.run` consults for control flow. -/
structure Booking where
  isUnassigned : Bool
  djShort : String
  weekday : Nat
  year : Int

/-- The external world as `GigBookingManager.run` observes it: results of the
sheet reads, the calendar queries, and the operator dialogs.  Each field
corresponds to one I/O call site of the source. -/
structure RunEnv where
  /-- `find_date_row`: row number if the date exists in the matrix. -/
  findRow : Option Nat
  /-- `create_date_row`: insertion row chosen when the date must be created. -/
  insertRow : Nat
  /-- `date_to_sheet_format(date)`, written to column A of a created row. -/
  dateDisplay : String
  /-- `get_row_data`: DJ-column cell values of the (possibly created) row. -/
  rowData : List (String × String)
  /-- `check_calendar_conflicts` for the booked DJ: matching event titles. -/
  calConflicts : List String
  /-- `show_multiple_booking_dialog`: operator approves a repeat booking. -/
  approveMultiple : Bool
  /-- `BACKUP_ELIGIBLE_DJS.get(year, BACKUP_ELIGIBLE_DJS[2026])`. -/
  eligibleDjs : List String
  /-- `is_cell_bold` oracle, looked up only for a Woody `OUT` cell. -/
  woodyBold : Bool
  /-- `show_backup_dialog`: DJ chosen by the operator, if any. -/
  backupChoice : Option String
  /-- `check_calendar_conflicts` for the chosen backup DJ. -/
  backupConflicts : List String
  /-- `calculate_event_times` produced a start/end pair. -/
  hasEventTimes : Bool

/-- Outcome of one `GigBookingManager.run` invocation: the return value, the
`write_cell` calls performed (column, value) in order, and the number of
calendar events created. -/
structure RunResult where
  success : Bool
  writes : List (Nat × String)
  calendarEvents : Nat
deriving DecidableEq

/-- The scaffold writes of `create_date_row` (gig_booking_manager.py): the date
label into column A and the `ROW_FORMULA_TEMPLATES` formulas into columns
B, C, E, G, H, with the row number substituted into each template. -/
def createDateRowWrites (r : Nat) (dateDisplay : String) : List (Nat × String) :=
  [(1, dateDisplay),
   (2, "=IF(T" ++ Nat.repr r ++ "<1,LEFT(\"(((((((\",S" ++ Nat.repr r ++
       ")&\"NO SPOTS\"&LEFT(\")))))))\",S" ++ Nat.repr r ++ "),\"\")"),
   (3, "=IF(T" ++ Nat.repr r ++ "=1,LEFT(\"(((((((\",S" ++ Nat.repr r ++
       ")&\"1 SPOT\"&LEFT(\")))))))\",S" ++ Nat.repr r ++ "),\"\")"),
   (5, "=if(or(weekday($A" ++ Nat.repr r ++ ",2)>5),\"OUT\",\"\")"),
   (7, "=if(or(weekday($A" ++ Nat.repr r ++ ",2)<6,weekday($A" ++ Nat.repr r ++
       ",2)=7),\"OUT\",\"\")"),
   (8, "=if(weekday($A" ++ Nat.repr r ++ ",2)<6,\"OUT\",\"\")")]

/-- The backup-candidate enumeration of Phase 2 of `GigBookingManager.run`:
every backup-eligible DJ other than the booked one that has a matrix column
and passes `can_backup` (bold checked only for a Woody `OUT` cell). -/
def backupCandidates (b : Booking) (env : RunEnv) (colMap : List (String × Nat))
    (rowData : List (String × String)) : List String :=
  (env.eligibleDjs.filter (fun dj =>
    ¬ dj = b.djShort ∧ (lookupStr colMap dj).isSome ∧
    (can_backup dj ((lookupStr rowData dj).getD "")
      (if dj = "Woody" ∧ pyUpper (pyStrip ((lookupStr rowData dj).getD "")) = "OUT"
        then env.woodyBold else false)
      b.weekday b.year).1 = true))

/-- The backup phase of `GigBookingManager.run` (Phase 2, assigned bookings):
the dialog offers the candidates unless a backup already exists; a chosen
backup is dropped again on a calendar conflict, otherwise `BACKUP` is written
to its column.  Returns the extra writes and whether a backup was assigned. -/
def backupPhase (b : Booking) (env : RunEnv) (colMap : List (String × Nat))
    (rowData : List (String × String)) : List (Nat × String) × Bool :=
  let candidates := backupCandidates b env colMap rowData
  let choice : Option String :=
    if (check_existing_backup rowData).isSome then none
    else if candidates = [] then none
    else match env.backupChoice with
      | some c => if candidates.contains c then some c else none
      | none => none
  match choice with
  | none => ([], false)
  | some bdj =>
    if env.backupConflicts ≠ [] then ([], false)
    else ([((lookupStr colMap bdj).getD 0, "BACKUP")], true)

/-- Embedding of `GigBookingManager.run` (gig_booking_manager.py, lines
942-1274) in production (non-dry-run) mode, from the point where the booking
JSON has been parsed: year column-map check, date-row lookup (creating the
row when absent), Phase 1 matrix/calendar validation with its halt paths,
Phase 2 matrix and backup writes, Phase 3 calendar-event creation. -/
def runBooking (b : Booking) (env : RunEnv) : RunResult :=
  match COLUMN_MAPS b.year with
  | none => ⟨false, [], 0⟩
  | some colMap =>
    let createWrites :=
      match env.findRow with
      | some _ => []
      | none => createDateRowWrites env.insertRow env.dateDisplay
    let rowData := env.rowData
    -- Phase 1: validate
    if b.isUnassigned = false ∧ (lookupStr colMap b.djShort).isNone then
      ⟨false, createWrites, 0⟩
    else
      let cellValue := (lookupStr rowData b.djShort).getD ""
      let matrixCount := count_booked_events cellValue
      let calendarCount : Int := env.calConflicts.length
      if b.isUnassigned = false ∧ ¬ matrixCount = calendarCount then
        ⟨false, createWrites, 0⟩
      else if b.isUnassigned = false ∧ matrixCount > 0 ∧ env.approveMultiple = false then
        ⟨false, createWrites, 0⟩
      else
        let allowMultiple := b.isUnassigned = false ∧ matrixCount > 0
        -- Phase 2: matrix write
        if b.isUnassigned = false then
          let colNum := (lookupStr colMap b.djShort).getD 0
          let newValue := if allowMultiple then increment_booked cellValue else "BOOKED"
          let rowData2 :=
            if (lookupStr rowData b.djShort).isSome then
              rowData.map (fun p => if p.1 = b.djShort then (p.1, newValue) else p)
            else rowData ++ [(b.djShort, newValue)]
          let bookWrite := [(colNum, newValue)]
          let bp := backupPhase b env colMap rowData2
          let events := (if env.hasEventTimes then 1 else 0) + (if bp.2 then 1 else 0)
          ⟨true, createWrites ++ bookWrite ++ bp.1, events⟩
        else
          match lookupStr colMap "TBA" with
          | none => ⟨false, createWrites, 0⟩
          | some tbaCol =>
            let newTba := increment_tba ((lookupStr rowData "TBA").getD "")
            let events := if env.hasEventTimes then 1 else 0
            ⟨true, createWrites ++ [(tbaCol, newTba)], events⟩

/-! ### Concrete rows and environments used by the claims -/

/-- A row with every DJ cell blank, 2026 layout. -/
def allBlankRow2026 : List (String × String) :=
  [("Date", "Sat 6/6"), ("Henry", ""), ("Woody", ""), ("Paul", ""), ("Stefano", ""),
   ("Felipe", ""), ("TBA", ""), ("Stephanie", ""), ("AAG", "")]

/-- A weekday row with every DJ marked `OUT`: nobody can book or backup. -/
def allOutRow2026 : List (String × String) :=
  [("Date", "Wed 6/3"), ("Henry", "OUT"), ("Woody", "OUT"), ("Paul", "OUT"),
   ("Stefano", "OUT"), ("Felipe", "OUT"), ("TBA", ""), ("Stephanie", ""), ("AAG", "")]

/-- Assigned Paul booking on a Saturday in 2026. -/
def c2Booking : Booking := ⟨false, "Paul", 5, 2026⟩

/-- Environment where the date row exists, Paul's cell says `BOOKED` but the
calendar has no event for `[PB]`: matrix count 1 vs calendar count 0. -/
def c2EnvExisting : RunEnv :=
  ⟨some 5, 0, "Sat 6/6",
   [("Henry", ""), ("Woody", ""), ("Paul", "BOOKED"), ("Stefano", ""),
    ("Felipe", ""), ("TBA", ""), ("Stephanie", "")],
   [], false, ["Henry", "Woody", "Paul", "Stefano", "Felipe"], false, none, [], true⟩

/-- Environment where the date row does not exist yet (it gets created) and the
calendar already has one `[PB]` event: matrix count 0 vs calendar count 1. -/
def c2EnvFresh : RunEnv :=
  ⟨none, 42, "Sat 6/6",
   [("Henry", ""), ("Woody", ""), ("Paul", ""), ("Stefano", ""),
    ("Felipe", ""), ("TBA", ""), ("Stephanie", "")],
   ["[PB] Smith Wedding"], false, ["Henry", "Woody", "Paul", "Stefano", "Felipe"],
   false, none, [], true⟩

/-- The finite row family of the amended claim C9: weekend 2026 rows whose
cells range over the plain availability tokens (blank / `OUT`, bold `OUT` for
Woody, `OK` for Felipe, an optional AAG `RESERVED` hold, empty TBA). -/
def c9Rows : List (List (String × String)) :=
  ["", "OUT"].flatMap fun h =>
  ["", "OUT", "OUT (BOLD)"].flatMap fun w =>
  ["", "OUT"].flatMap fun p =>
  ["", "OUT"].flatMap fun st =>
  ["", "OK", "OUT"].flatMap fun f =>
  ["", "RESERVED"].map fun aag =>
    [("Date", "Sat 6/6"), ("Henry", h), ("Woody", w), ("Paul", p), ("Stefano", st),
     ("Felipe", f), ("TBA", ""), ("Stephanie", ""), ("AAG", aag)]

/-! ### Claims -/

/-- C1: the claim says an unrecognized non-empty cell value must yield
`(can_book, can_backup) = (false, false)` for every DJ in both
`check_dj_availability` and the booking manager's `can_backup`.  The code
violates this — and contradicts the repository's own test
`new_tests_unknown_values.py::test_felipe_unknown_2026` — for Felipe in
2026/2027, where `check_dj_availability` falls into the conservative
backup-only default and returns `(false, true)` on the unknown value
`PENDING`; the manager's `can_backup` guard does reject it. -/
theorem C1_unknown_value_code_bug :
    check_dj_availability "Felipe" "PENDING" (some 5) false (some "2026") = (false, true) ∧
    check_dj_availability "Paul" "PENDING" (some 5) false (some "2026") = (false, false) ∧
    can_backup "Felipe" "PENDING" false 5 2026 = (false, none) := by decide

/-- C5: `increment_tba` satisfies exactly the five specified equations. -/
theorem C5_increment_tba_equations :
    increment_tba "" = "BOOKED" ∧
    increment_tba "BOOKED" = "BOOKED x 2" ∧
    increment_tba "BOOKED x 2" = "BOOKED x 3" ∧
    increment_tba "AAG" = "BOOKED, AAG" ∧
    increment_tba "BOOKED, AAG" = "BOOKED x 2, AAG" := by decide

/-- Case analysis on an if-then-else under an explicit motive. -/
theorem iteCases {α : Sort _} {c : Prop} [Decidable c] {x y : α} (P : α → Prop)
    (hx : P x) (hy : P y) : P (if c then x else y) := by
  by_cases h : c
  · rw [if_pos h]; exact hx
  · rw [if_neg h]; exact hy

/-- C10: `check_dj_availability` never returns `(can_book, can_backup) =
(true, false)`: whenever a DJ is bookable the result also marks the DJ
backup-eligible, for every DJ name, cell value, date, bold flag and year. -/
theorem C10_can_book_implies_can_backup (djName rawValue : String)
    (dateWeekday : Option Nat) (isBold : Bool) (year : Option String) :
    ((check_dj_availability djName rawValue dateWeekday isBold year).1 &&
     !(check_dj_availability djName rawValue dateWeekday isBold year).2) = false := by
  delta check_dj_availability checkCore
  repeat' first
    | exact rfl
    | refine iteCases (fun (p : Bool × Bool) => (p.1 && !(p.2)) = false) ?_ ?_

/-- C3: in `analyze_availability`, whenever the analysis finds
`backup_count == 0` and an empty `available_for_backup` list, the returned
`available_spots` is forced to 0 (for every row, date and year); and on the
all-blank 2026 weekend row, where backup coverage exists, the three bookable
DJs yield `available_spots = 3`. -/
theorem C3_forced_zero_spots :
    (∀ (data : List (String × String)) (d : Option Nat) (y : Option String),
      (analyze_availability data d y).backupCount = 0 →
      (analyze_availability data d y).availableBackup = [] →
      (analyze_availability data d y).availableSpots = 0) ∧
    (analyze_availability allBlankRow2026 (some 5) (some "2026")).availableSpots = 3 ∧
    (analyze_availability allBlankRow2026 (some 5) (some "2026")).availableBackup ≠ [] := by
  refine ⟨fun data d y h1 h2 => ?_, by decide, by decide⟩
  simp only [analyze_availability] at h1 h2 ⊢
  rw [if_pos ⟨h1, h2⟩]

/-- Witness for C3: the all-`OUT` weekday row has no backup coverage, and the
theorem forces its `available_spots` to 0. -/
theorem C3_forced_zero_spots_witness :
    (analyze_availability allOutRow2026 (some 2) (some "2026")).backupCount = 0 ∧
    (analyze_availability allOutRow2026 (some 2) (some "2026")).availableBackup = [] ∧
    (analyze_availability allOutRow2026 (some 2) (some "2026")).availableSpots = 0 :=
  ⟨by decide, by decide,
   C3_forced_zero_spots.1 allOutRow2026 (some 2) (some "2026") (by decide) (by decide)⟩

/-- C2 counterexample: the claim as stated is false.  For a booking whose date
row does not yet exist in the matrix, `GigBookingManager.run` creates the row
(six `write_cell` calls: the date label and the five formula templates)
before Phase 1 validation, so a matrix/calendar mismatch (here 0 vs 1) halts
only after those writes. -/
theorem C2_counterexample :
    c2Booking.isUnassigned = false ∧
    count_booked_events ((lookupStr c2EnvFresh.rowData "Paul").getD "") = 0 ∧
    (c2EnvFresh.calConflicts.length : Int) = 1 ∧
    (runBooking c2Booking c2EnvFresh).success = false ∧
    (runBooking c2Booking c2EnvFresh).writes.length = 6 ∧
    (runBooking c2Booking c2EnvFresh).calendarEvents = 0 := by decide

/-- C2 (amended): for an assigned booking whose matrix booking count differs
from the calendar event count, `GigBookingManager.run` halts during Phase 1
validation with no calendar events; it performs zero matrix cell writes when
the date row already exists, and only the row-creation scaffold writes (date
label plus formula templates, from `create_date_row`) when the row had to be
created. -/
theorem C2_mismatch_halts_before_writes (b : Booking) (env : RunEnv)
    (h1 : b.isUnassigned = false)
    (h2 : ¬ count_booked_events ((lookupStr env.rowData b.djShort).getD "") =
      (env.calConflicts.length : Int)) :
    (runBooking b env).success = false ∧ (runBooking b env).calendarEvents = 0 ∧
    (env.findRow.isSome → (runBooking b env).writes = []) ∧
    ((runBooking b env).writes = [] ∨
      (runBooking b env).writes = createDateRowWrites env.insertRow env.dateDisplay) := by
  have key : runBooking b env = ⟨false,
      (match env.findRow with
        | some _ => []
        | none => createDateRowWrites env.insertRow env.dateDisplay), 0⟩ ∨
      runBooking b env = ⟨false, [], 0⟩ := by
    cases hcm : COLUMN_MAPS b.year with
    | none => right; simp only [runBooking, hcm]
    | some colMap =>
      left
      simp only [runBooking, hcm]
      by_cases hmem : b.isUnassigned = false ∧ (lookupStr colMap b.djShort).isNone = true
      · rw [if_pos hmem]
      · rw [if_neg hmem, if_pos ⟨h1, h2⟩]
  rcases key with h | h <;> rw [h] <;> cases hfr : env.findRow <;> simp

/-- Witness for C2: Paul marked `BOOKED` in an existing row while the calendar
shows no `[PB]` event — the run halts with zero writes and zero events. -/
theorem C2_mismatch_halts_before_writes_witness :
    c2Booking.isUnassigned = false ∧
    ¬ count_booked_events ((lookupStr c2EnvExisting.rowData "Paul").getD "") =
      (c2EnvExisting.calConflicts.length : Int) ∧
    (runBooking c2Booking c2EnvExisting).success = false ∧
    (runBooking c2Booking c2EnvExisting).writes = [] :=
  ⟨by decide, by decide,
   (C2_mismatch_halts_before_writes c2Booking c2EnvExisting (by decide) (by decide)).1,
   (C2_mismatch_halts_before_writes c2Booking c2EnvExisting (by decide) (by decide)).2.2.1
     (by decide)⟩

/-- C9 counterexample: the claim that `calculate_spots_remaining` and
`analyze_availability` agree on available spots for every row state is false:
on a weekday row where only Henry is blank, the booking manager counts
Henry's blank cell as one available spot, while the row analyzer applies
Henry's weekday backup-only rule and reports zero spots. -/
theorem C9_counterexample :
    calculate_spots_remaining (allOutRow2026.map
      (fun p => if p.1 = "Henry" then (p.1, "") else p)) 2026 (some 2) = 1 ∧
    (analyze_availability (allOutRow2026.map
      (fun p => if p.1 = "Henry" then (p.1, "") else p)) (some 2) (some "2026")).availableSpots
      = 0 := by decide

/-- C9 (amended): the two spot computations do agree on 2026 weekend rows
built from the plain availability tokens (blank or `OUT` for Henry, Woody,
Paul, Stefano — with a possible bold `OUT` for Woody — blank, `OK` or `OUT`
for Felipe, blank TBA and Stephanie, and an optional AAG `RESERVED` hold). -/
theorem C9_spots_agree_on_plain_weekend_rows :
    ∀ row ∈ c9Rows,
      calculate_spots_remaining row 2026 (some 5) =
        (analyze_availability row (some 5) (some "2026")).availableSpots := by decide

/-- Witness for C9: the all-blank weekend row is in the family and both
computations give 3 spots on it. -/
theorem C9_spots_agree_witness :
    calculate_spots_remaining allBlankRow2026 2026 (some 5) =
      (analyze_availability allBlankRow2026 (some 5) (some "2026")).availableSpots :=
  C9_spots_agree_on_plain_weekend_rows allBlankRow2026 (by decide)

/-- A set difference from the empty set is non-empty exactly for non-empty sets. -/
theorem pySetSub_nil_iff (a : List String) : pySetSub a [] = true ↔ a ≠ [] := by
  cases a <;> simp [pySetSub]

/-- Set-equal collections have empty differences both ways. -/
theorem pySetSub_eq_false_of_eq {a b : List String} (h : pySetEqL a b = true) :
    pySetSub a b = false ∧ pySetSub b a = false := by
  rw [pySetEqL, Bool.and_eq_true, List.all_eq_true, List.all_eq_true] at h
  refine ⟨?_, ?_⟩ <;> rw [pySetSub, List.any_eq_false] <;> intro x hx <;> simp
  · simpa using h.1 x hx
  · simpa using h.2 x hx

/-- C8 counterexample: the claim that every divergent date gets exactly one
classification tag, with `MissingFromCalendar` exactly when the gig set is
non-empty, the calendar set empty and the matrix set equal to the gig set, is
false on both counts: a date in the gig database only is reported under both
`MissingFromMatrix` and `MissingFromCalendar`, while a date where the matrix
matches the gig database and the calendar is empty is classified
`DjMismatch`, not `MissingFromCalendar`. -/
theorem C8_counterexample :
    classifyDate ["Paul"] [] (some []) =
      [Tag.MissingFromMatrix, Tag.MissingFromCalendar] ∧
    classifyDate ["Paul"] ["Paul"] (some []) = [Tag.DjMismatch] := by decide

/-- C8 (amended): on every divergent date (three sources present) the
classification assigns exactly one primary tag among `MissingFromMatrix`,
`MissingFromGigDb` and `DjMismatch`; the `MissingFromCalendar` tag is
additionally reported exactly when the gig set is non-empty, the calendar set
is empty and the date was not classified `DjMismatch`; and a date whose
matrix set equals its non-empty gig set with an empty calendar is classified
`DjMismatch` only. -/
theorem C8_first_match_classification (gig matrix calL : List String)
    (hdiv : (pySetEqL gig matrix && pySetEqL matrix calL) = false) :
    ((classifyDate gig matrix (some calL)).count Tag.MissingFromMatrix +
     (classifyDate gig matrix (some calL)).count Tag.MissingFromGigDb +
     (classifyDate gig matrix (some calL)).count Tag.DjMismatch = 1) ∧
    (Tag.MissingFromCalendar ∈ classifyDate gig matrix (some calL) ↔
      (gig ≠ [] ∧ calL = [] ∧ Tag.DjMismatch ∉ classifyDate gig matrix (some calL))) ∧
    (pySetEqL matrix gig = true ∧ gig ≠ [] ∧ calL = [] →
      classifyDate gig matrix (some calL) = [Tag.DjMismatch]) := by
  have hMain : classifyDate gig matrix (some calL) =
      classifyPrimary gig matrix ::
      (if pySetSub gig calL = true ∧ calL = [] ∧
          ¬ classifyPrimary gig matrix = Tag.DjMismatch then [Tag.MissingFromCalendar]
       else []) := by
    rw [classifyDate, if_neg]
    · simp
    · simp [hdiv]
  by_cases h1 : pySetSub gig matrix = true ∧ pySetSub matrix gig = false ∧ matrix = []
  · -- primary tag is MissingFromMatrix
    have hprim : classifyPrimary gig matrix = Tag.MissingFromMatrix := by
      rw [classifyPrimary, if_pos h1]
    rw [hprim] at hMain
    have hc3 : pySetEqL matrix gig = true ∧ gig ≠ [] ∧ calL = [] →
        classifyDate gig matrix (some calL) = [Tag.DjMismatch] := by
      intro h
      exact absurd h1.1 (by rw [(pySetSub_eq_false_of_eq h.1).2]; decide)
    by_cases hr : pySetSub gig calL = true ∧ calL = []
    · rw [if_pos ⟨hr.1, hr.2, by decide⟩] at hMain
      have hg : gig ≠ [] := by
        have hx := hr.1
        rw [hr.2] at hx
        exact (pySetSub_nil_iff gig).mp hx
      rw [hMain]
      exact ⟨rfl, ⟨fun _ => ⟨hg, hr.2, by decide⟩, fun _ => by decide⟩, hMain ▸ hc3⟩
    · rw [if_neg (fun hcon => hr ⟨hcon.1, hcon.2.1⟩)] at hMain
      rw [hMain]
      refine ⟨rfl, ⟨fun h => absurd h (by decide), ?_⟩, hMain ▸ hc3⟩
      rintro ⟨hg, hc, -⟩
      subst hc
      exact absurd ⟨(pySetSub_nil_iff gig).mpr hg, rfl⟩ hr
  · by_cases h2 : pySetSub matrix gig = true ∧ pySetSub gig matrix = false ∧ gig = []
    · -- primary tag is MissingFromGigDb, and the gig set is empty
      have hprim : classifyPrimary gig matrix = Tag.MissingFromGigDb := by
        rw [classifyPrimary, if_neg h1, if_pos h2]
      rw [hprim] at hMain
      have hgigE : pySetSub gig calL = false := by rw [h2.2.2]; rfl
      rw [if_neg (fun hcon => Bool.false_ne_true (hgigE ▸ hcon.1))] at hMain
      rw [hMain]
      refine ⟨rfl, ⟨fun h => absurd h (by decide), ?_⟩, ?_⟩
      · rintro ⟨hg, -, -⟩
        exact absurd h2.2.2 hg
      · rintro ⟨-, hg, -⟩
        exact absurd h2.2.2 hg
    · -- primary tag is DjMismatch
      have hprim : classifyPrimary gig matrix = Tag.DjMismatch := by
        rw [classifyPrimary, if_neg h1, if_neg h2]
      rw [hprim] at hMain
      rw [if_neg (fun hcon => hcon.2.2 rfl)] at hMain
      rw [hMain]
      refine ⟨rfl, ⟨fun h => absurd h (by decide), ?_⟩, fun _ => rfl⟩
      rintro ⟨-, -, h⟩
      exact absurd (by decide : Tag.DjMismatch ∈ [Tag.DjMismatch]) h

/-- Witness for C8: a date with different single DJs in the gig database and
the matrix while the calendar agrees with the gig database is divergent and
is classified `DjMismatch` only. -/
theorem C8_first_match_classification_witness :
    ((pySetEqL ["Paul"] ["Woody"] && pySetEqL ["Woody"] ["Paul"]) = false) ∧
    (classifyDate ["Paul"] ["Woody"] (some ["Paul"])).count Tag.MissingFromMatrix +
      (classifyDate ["Paul"] ["Woody"] (some ["Paul"])).count Tag.MissingFromGigDb +
      (classifyDate ["Paul"] ["Woody"] (some ["Paul"])).count Tag.DjMismatch = 1 :=
  ⟨by decide, (C8_first_match_classification ["Paul"] ["Woody"] ["Paul"] (by decide)).1⟩

/-- A string whose lower-casing is a non-empty word is itself non-empty. -/
theorem lowerNeNil {v w : String} (hv : pyLower v = w) (hw : ¬ w = "") : ¬ v = "" := by
  intro h
  subst h
  rw [show pyLower "" = "" from rfl] at hv
  exact hw hv.symm

/-- A `BOOKED`, `BACKUP` or `RESERVED` cell makes every DJ fully unavailable
in `check_dj_availability`, whatever the DJ, date, bold flag and year. -/
theorem checkRowBookedBackupReserved (dj v : String) (d : Option Nat) (b : Bool)
    (y : Option String)
    (hv : pyLower (pyStrip v) = "booked" ∨ pyLower (pyStrip v) = "backup" ∨
      pyLower (pyStrip v) = "reserved") :
    check_dj_availability dj v d b y = (false, false) := by
  have hne : ¬ pyStrip v = "" := by
    rcases hv with hv | hv | hv <;> exact lowerNeNil hv (by decide)
  delta check_dj_availability checkCore
  rcases hv with hv | hv | hv <;> rw [hv] <;>
    rw [if_neg (fun h => hne h.2.2)] <;>
    rw [if_neg (fun h => absurd h.2.2 (by decide))] <;>
    rw [if_neg (fun h => hne h.2.2)] <;>
    rw [if_neg (fun h => hne h.2.2.2)] <;>
    rw [if_neg (fun h => absurd h.2.2.2 (by decide))]
  · rw [if_pos (Or.inl rfl)]
  · rw [if_pos (Or.inr rfl)]
  · rw [if_neg (fun h => h.elim (fun h1 => absurd h1 (by decide))
      (fun h2 => absurd h2 (by decide)))]
    rw [if_pos rfl]

/-- A `MAXED` cell makes a DJ fully unavailable in `check_dj_availability`,
except for Woody on a non-bold weekend cell, who stays backup-eligible. -/
theorem checkRowMaxed (dj v : String) (d : Option Nat) (b : Bool) (y : Option String)
    (hv : pyLower (pyStrip v) = "maxed") :
    check_dj_availability dj v d b y =
      (if dj = "Woody" ∧ weekendFlag d = true ∧ b = false then (false, true)
       else (false, false)) := by
  have hne : ¬ pyStrip v = "" := lowerNeNil hv (by decide)
  delta check_dj_availability checkCore
  rw [hv]
  rw [if_neg (fun h => hne h.2.2)]
  rw [if_neg (fun h => absurd h.2.2 (by decide))]
  rw [if_neg (fun h => hne h.2.2)]
  rw [if_neg (fun h => hne h.2.2.2)]
  rw [if_neg (fun h => absurd h.2.2.2 (by decide))]
  rw [if_neg (fun h => h.elim (fun h1 => absurd h1 (by decide))
    (fun h2 => absurd h2 (by decide)))]
  rw [if_neg (by decide : ¬ ("maxed" : String) = "reserved")]
  by_cases hF : dj = "Felipe" ∧ (y = some "2026" ∨ y = some "2027")
  · rw [if_pos hF, if_neg hne]
    rw [if_neg (by decide : ¬ ("maxed" : String) = "ok")]
    rw [if_neg (fun h => h.elim (fun h1 => absurd h1 (by decide))
      (fun h2 => absurd h2 (by decide)))]
    rw [if_pos (Or.inr rfl)]
    rw [if_neg (fun h => absurd (h.1.symm.trans hF.1) (by decide))]
  · rw [if_neg hF, if_neg hne]
    rw [if_pos (Or.inr rfl)]

/-- A `LAST` cell marks a DJ fully available in `check_dj_availability`,
except for Felipe in 2026/2027, who falls into the backup-only default. -/
theorem checkRowLast (dj v : String) (d : Option Nat) (b : Bool) (y : Option String)
    (hv : pyLower (pyStrip v) = "last") :
    check_dj_availability dj v d b y =
      (if dj = "Felipe" ∧ (y = some "2026" ∨ y = some "2027") then (false, true)
       else (true, true)) := by
  have hne : ¬ pyStrip v = "" := lowerNeNil hv (by decide)
  delta check_dj_availability checkCore
  rw [hv]
  rw [if_neg (fun h => hne h.2.2)]
  rw [if_neg (fun h => absurd h.2.2 (by decide))]
  rw [if_neg (fun h => hne h.2.2)]
  rw [if_neg (fun h => hne h.2.2.2)]
  rw [if_neg (fun h => absurd h.2.2.2 (by decide))]
  rw [if_neg (fun h => h.elim (fun h1 => absurd h1 (by decide))
    (fun h2 => absurd h2 (by decide)))]
  rw [if_neg (by decide : ¬ ("last" : String) = "reserved")]
  by_cases hF : dj = "Felipe" ∧ (y = some "2026" ∨ y = some "2027")
  · rw [if_pos hF, if_neg hne]
    rw [if_neg (by decide : ¬ ("last" : String) = "ok")]
    rw [if_neg (fun h => h.elim (fun h1 => absurd h1 (by decide))
      (fun h2 => absurd h2 (by decide)))]
    rw [if_neg (fun h => h.elim (fun h1 => absurd h1 (by decide))
      (fun h2 => absurd h2 (by decide)))]
    rw [if_pos hF]
  · rw [if_neg hF, if_neg hne]
    rw [if_neg (fun h => h.elim (fun h1 => absurd h1 (by decide))
      (fun h2 => absurd h2 (by decide)))]
    rw [if_neg (by decide : ¬ ("last" : String) = "ok to backup")]
    rw [if_neg (by decide : ¬ ("last" : String) = "ok")]
    rw [if_neg (fun h => absurd h.2 (by decide))]
    rw [if_neg (fun h => absurd h.2 (by decide))]
    rw [if_pos rfl]
    rw [if_neg hF]

/-- A `STANFORD` cell is not recognized by `check_dj_availability` at all: it
falls to the catch-all `(false, false)`, or to Felipe's backup-only default
in 2026/2027. -/
theorem checkRowStanford (dj v : String) (d : Option Nat) (b : Bool) (y : Option String)
    (hv : pyLower (pyStrip v) = "stanford") :
    check_dj_availability dj v d b y =
      (if dj = "Felipe" ∧ (y = some "2026" ∨ y = some "2027") then (false, true)
       else (false, false)) := by
  have hne : ¬ pyStrip v = "" := lowerNeNil hv (by decide)
  delta check_dj_availability checkCore
  rw [hv]
  rw [if_neg (fun h => hne h.2.2)]
  rw [if_neg (fun h => absurd h.2.2 (by decide))]
  rw [if_neg (fun h => hne h.2.2)]
  rw [if_neg (fun h => hne h.2.2.2)]
  rw [if_neg (fun h => absurd h.2.2.2 (by decide))]
  rw [if_neg (fun h => h.elim (fun h1 => absurd h1 (by decide))
    (fun h2 => absurd h2 (by decide)))]
  rw [if_neg (by decide : ¬ ("stanford" : String) = "reserved")]
  by_cases hF : dj = "Felipe" ∧ (y = some "2026" ∨ y = some "2027")
  · rw [if_pos hF, if_neg hne]
    rw [if_neg (by decide : ¬ ("stanford" : String) = "ok")]
    rw [if_neg (fun h => h.elim (fun h1 => absurd h1 (by decide))
      (fun h2 => absurd h2 (by decide)))]
    rw [if_neg (fun h => h.elim (fun h1 => absurd h1 (by decide))
      (fun h2 => absurd h2 (by decide)))]
    rw [if_pos hF]
  · rw [if_neg hF, if_neg hne]
    rw [if_neg (fun h => h.elim (fun h1 => absurd h1 (by decide))
      (fun h2 => absurd h2 (by decide)))]
    rw [if_neg (by decide : ¬ ("stanford" : String) = "ok to backup")]
    rw [if_neg (by decide : ¬ ("stanford" : String) = "ok")]
    rw [if_neg (fun h => absurd h.2 (by decide))]
    rw [if_neg (fun h => absurd h.2 (by decide))]
    rw [if_neg (by decide : ¬ ("stanford" : String) = "last")]
    rw [if_neg hF]

/-- In the booking manager's `can_backup`, the universal rows hold exactly as
specified: `BOOKED` / `BACKUP` / `MAXED` / `RESERVED` refuse, `STANFORD` /
`LAST` accept, for every DJ, bold flag, weekday and year. -/
theorem canBackupUniversalRows (dj cell : String) (b : Bool) (wd : Nat) (yr : Int) :
    ((pyUpper (pyStrip cell) = "BOOKED" ∨ pyUpper (pyStrip cell) = "BACKUP" ∨
      pyUpper (pyStrip cell) = "MAXED" ∨ pyUpper (pyStrip cell) = "RESERVED") →
      (can_backup dj cell b wd yr).1 = false) ∧
    ((pyUpper (pyStrip cell) = "STANFORD" ∨ pyUpper (pyStrip cell) = "LAST") →
      (can_backup dj cell b wd yr).1 = true) := by
  constructor
  · intro hv
    delta can_backup
    rcases hv with hv | hv | hv | hv <;> rw [hv] <;>
      rw [if_neg (by decide)] <;> rw [if_pos (by decide)] <;> rfl
  · intro hv
    delta can_backup
    rcases hv with hv | hv <;> rw [hv] <;>
      rw [if_neg (by decide)] <;> rw [if_neg (by decide)] <;>
      rw [if_pos (by decide)] <;> rfl

/-- C4 counterexample: the universal decision-table rows of the claim fail on
`check_dj_availability`: `STANFORD` yields `(false, false)` instead of
`(true, true)`, `MAXED` for Woody on a non-bold weekend cell yields
`(false, true)` instead of `(false, false)`, and `LAST` for Felipe in 2026
yields `(false, true)` instead of `(true, true)`. -/
theorem C4_counterexample :
    check_dj_availability "Henry" "STANFORD" (some 5) false (some "2026") = (false, false) ∧
    check_dj_availability "Woody" "MAXED" (some 5) false (some "2026") = (false, true) ∧
    check_dj_availability "Felipe" "LAST" (some 5) false (some "2026") = (false, true) := by
  decide

/-- C4 (amended): in `check_dj_availability`, `BOOKED` / `BACKUP` / `RESERVED`
yield `(false, false)` universally; `MAXED` yields `(false, false)` except for
Woody on a non-bold weekend cell, where it yields `(false, true)`; `LAST`
yields `(true, true)` except for Felipe in 2026/2027, where it yields
`(false, true)`; `STANFORD` is not recognized and yields `(false, false)`
(`(false, true)` for Felipe in 2026/2027).  In the booking manager's
`can_backup`, the universal rows hold exactly as the claim states them. -/
theorem C4_universal_rows (dj v : String) (d : Option Nat) (b : Bool)
    (y : Option String) (wd : Nat) (yr : Int) :
    ((pyLower (pyStrip v) = "booked" ∨ pyLower (pyStrip v) = "backup" ∨
      pyLower (pyStrip v) = "reserved") →
      check_dj_availability dj v d b y = (false, false)) ∧
    (pyLower (pyStrip v) = "maxed" →
      check_dj_availability dj v d b y =
        (if dj = "Woody" ∧ weekendFlag d = true ∧ b = false then (false, true)
         else (false, false))) ∧
    (pyLower (pyStrip v) = "last" →
      check_dj_availability dj v d b y =
        (if dj = "Felipe" ∧ (y = some "2026" ∨ y = some "2027") then (false, true)
         else (true, true))) ∧
    (pyLower (pyStrip v) = "stanford" →
      check_dj_availability dj v d b y =
        (if dj = "Felipe" ∧ (y = some "2026" ∨ y = some "2027") then (false, true)
         else (false, false))) ∧
    ((pyUpper (pyStrip v) = "BOOKED" ∨ pyUpper (pyStrip v) = "BACKUP" ∨
      pyUpper (pyStrip v) = "MAXED" ∨ pyUpper (pyStrip v) = "RESERVED") →
      (can_backup dj v b wd yr).1 = false) ∧
    ((pyUpper (pyStrip v) = "STANFORD" ∨ pyUpper (pyStrip v) = "LAST") →
      (can_backup dj v b wd yr).1 = true) :=
  ⟨checkRowBookedBackupReserved dj v d b y,
   checkRowMaxed dj v d b y,
   checkRowLast dj v d b y,
   checkRowStanford dj v d b y,
   (canBackupUniversalRows dj v b wd yr).1,
   (canBackupUniversalRows dj v b wd yr).2⟩

/-- Witness for C4: concrete cells exercising the booked row of the rule
engine and the Stanford row of the backup rule. -/
theorem C4_universal_rows_witness :
    check_dj_availability "Paul" "BOOKED" (some 5) false (some "2026") = (false, false) ∧
    (can_backup "Paul" "STANFORD" false 5 2026).1 = true :=
  ⟨(C4_universal_rows "Paul" "BOOKED" (some 5) false (some "2026") 5 2026).1
     (Or.inl (by decide)),
   (C4_universal_rows "Paul" "STANFORD" (some 5) false (some "2026") 5 2026).2.2.2.2.2
     (Or.inl (by decide))⟩

/-! ### Character and string lemmas used by the round-trip claims -/

/-- Digit characters have code points between 48 and 57. -/
theorem isDigitC_bounds {c : Char} (h : isDigitC c = true) :
    48 ≤ c.toNat ∧ c.toNat ≤ 57 := by simpa [isDigitC] using h

/-- Digits are not whitespace. -/
theorem digit_not_ws {c : Char} (h : isDigitC c = true) : isWsC c = false := by
  have h1 := isDigitC_bounds h
  simp [isWsC]
  omega

/-- Lower-casing fixes digits. -/
theorem digit_lowerC {c : Char} (h : isDigitC c = true) : lowerC c = c := by
  have h1 := isDigitC_bounds h
  rw [lowerC, if_neg]
  omega

/-- Upper-casing fixes digits. -/
theorem digit_upperC {c : Char} (h : isDigitC c = true) : upperC c = c := by
  have h1 := isDigitC_bounds h
  rw [upperC, if_neg]
  omega

/-- Characters with different code points differ. -/
theorem charNeOfToNat {c d : Char} (h : c.toNat ≠ d.toNat) : c ≠ d :=
  fun he => h (he ▸ rfl)

/-- Mapping a function that fixes every element of a list fixes the list. -/
theorem mapEqSelf {α : Type} {f : α → α} : ∀ {l : List α}, (∀ c ∈ l, f c = c) →
    l.map f = l
  | [], _ => rfl
  | c :: t, h => by
    rw [List.map_cons, h c (List.mem_cons_self c t),
      mapEqSelf (fun x hx => h x (List.mem_cons_of_mem c hx))]

/-- `dropWhile` fixes a list with no satisfying element. -/
theorem dropWhileEqSelf {p : Char → Bool} : ∀ {l : List Char},
    (∀ c ∈ l, p c = false) → l.dropWhile p = l
  | [], _ => rfl
  | c :: t, h => by
    rw [List.dropWhile_cons, h c (List.mem_cons_self c t)]
    simp

/-- `stripL` fixes a whitespace-free list. -/
theorem stripLEqSelfOfAll {l : List Char} (h : ∀ c ∈ l, isWsC c = false) :
    stripL l = l := dropWhileEqSelf h

/-- `stripR` fixes a whitespace-free list. -/
theorem stripREqSelfOfAll {l : List Char} (h : ∀ c ∈ l, isWsC c = false) :
    stripR l = l := by
  rw [stripR, dropWhileEqSelf (fun c hc => h c (List.mem_reverse.mp hc)),
    List.reverse_reverse]

/-- `stripL` keeps a list whose `stripL` fixes a non-empty prefix. -/
theorem stripLAppend {a b : List Char} (h : stripL a = a) (ha : a ≠ []) :
    stripL (a ++ b) = a ++ b := by
  cases a with
  | nil => exact absurd rfl ha
  | cons c t =>
    have hc : isWsC c = false := by
      cases hw : isWsC c with
      | false => rfl
      | true =>
        rw [stripL, List.dropWhile_cons, hw] at h
        have := congrArg List.length h
        have hle : (t.dropWhile isWsC).length ≤ t.length :=
          (List.dropWhile_sublist isWsC).length_le
        simp at this
        omega
    rw [List.cons_append, stripL, List.dropWhile_cons, hc]
    simp

/-- `stripR` keeps a list whose `stripR` fixes a non-empty suffix. -/
theorem stripRAppend {a b : List Char} (h : stripR b = b) (hb : b ≠ []) :
    stripR (a ++ b) = a ++ b := by
  rw [stripR, List.reverse_append]
  cases hrb : b.reverse with
  | nil => exact absurd (by simpa using hrb) hb
  | cons c t =>
    have hc : isWsC c = false := by
      cases hw : isWsC c with
      | false => rfl
      | true =>
        rw [stripR, hrb, List.dropWhile_cons, hw] at h
        have := congrArg List.length h
        have hle : (t.dropWhile isWsC).length ≤ t.length :=
          (List.dropWhile_sublist isWsC).length_le
        simp at this
        have hbl : b.reverse.length = b.length := List.length_reverse b
        rw [hrb] at hbl
        simp at hbl
        omega
    rw [List.cons_append, List.dropWhile_cons, hc]
    simp only [Bool.false_eq_true, if_false, List.reverse_cons]
    rw [← List.reverse_reverse b, hrb, List.reverse_cons]
    simp [List.reverse_append, List.append_assoc]

/-- `pyStrip` fixes the concatenation of a left part it fixes and a non-empty
whitespace-free right part. -/
theorem pyStripAppend {a b : List Char} (hL : stripL a = a) (ha : a ≠ [])
    (hb : ∀ c ∈ b, isWsC c = false) (hbne : b ≠ []) :
    pyStrip ⟨a ++ b⟩ = ⟨a ++ b⟩ := by
  rw [pyStrip]
  show (⟨stripL (stripR (a ++ b))⟩ : String) = _
  rw [stripRAppend (stripREqSelfOfAll hb) hbne, stripLAppend hL ha]

/-- `pyStrip` drops a single leading space before a whitespace-free list. -/
theorem pyStripSpace {l : List Char} (h : ∀ c ∈ l, isWsC c = false) (hl : l ≠ []) :
    pyStrip ⟨' ' :: l⟩ = ⟨l⟩ := by
  rw [pyStrip]
  show (⟨stripL (stripR (' ' :: l))⟩ : String) = _
  rw [show (' ' :: l) = [' '] ++ l from rfl,
    stripRAppend (stripREqSelfOfAll h) hl]
  show (⟨stripL (' ' :: l)⟩ : String) = _
  rw [stripL, List.dropWhile_cons]
  norm_num [show isWsC ' ' = true from rfl]
  exact congrArg _ (dropWhileEqSelf h)

/-- The empty list is a Boolean prefix of every list. -/
theorem nilIsPrefixOf (l : List Char) : List.isPrefixOf [] l = true := by
  cases l <;> rfl

/-- A list is a Boolean prefix of itself followed by anything. -/
theorem isPrefixOfAppendSelf : ∀ (p l : List Char), p.isPrefixOf (p ++ l) = true
  | [], l => nilIsPrefixOf ([] ++ l)
  | c :: t, l => by
    rw [List.cons_append, List.isPrefixOf_cons₂_self]
    exact isPrefixOfAppendSelf t l

/-- Elements of a Boolean prefix belong to the larger list. -/
theorem memOfIsPrefixOf : ∀ {p l : List Char}, p.isPrefixOf l = true →
    ∀ c ∈ p, c ∈ l := by
  intro p
  induction p with
  | nil => intro l h c hc; cases hc
  | cons a t ih =>
    intro l h c hc
    cases l with
    | nil => cases h
    | cons b l2 =>
      rw [List.isPrefixOf_cons₂, Bool.and_eq_true, beq_iff_eq] at h
      rcases List.mem_cons.mp hc with hc | hc
      · exact hc ▸ h.1 ▸ List.mem_cons_self b l2
      · exact List.mem_cons_of_mem b (ih h.2 c hc)

/-- Substring containment from a prefix match. -/
theorem hasSubLOfPrefix {p l : List Char} (h : p.isPrefixOf l = true) :
    hasSubL p l = true := by
  cases l with
  | nil =>
    cases p with
    | nil => rfl
    | cons c t => cases h
  | cons c rest => simp [hasSubL, h]

/-- Elements of a matched substring belong to the haystack. -/
theorem memOfHasSubL : ∀ {p l : List Char}, hasSubL p l = true → ∀ c ∈ p, c ∈ l := by
  intro p l
  induction l with
  | nil =>
    intro h c hc
    rw [hasSubL, List.isEmpty_iff] at h
    subst h
    cases hc
  | cons b rest ih =>
    intro h c hc
    rw [hasSubL, Bool.or_eq_true] at h
    rcases h with h | h
    · exact memOfIsPrefixOf h c hc
    · exact List.mem_cons_of_mem b (ih h c hc)

/-- No substring match when some needle character misses the haystack. -/
theorem hasSubLEqFalse {p l : List Char} {c : Char} (hc : c ∈ p) (hl : c ∉ l) :
    hasSubL p l = false := by
  cases h : hasSubL p l with
  | false => rfl
  | true => exact absurd (memOfHasSubL h c hc) hl

/-- A single character occurring in the haystack is a substring. -/
theorem hasSubLSingleton {c : Char} : ∀ {l : List Char}, c ∈ l →
    hasSubL [c] l = true := by
  intro l
  induction l with
  | nil => intro h; cases h
  | cons b rest ih =>
    intro h
    rw [hasSubL, Bool.or_eq_true]
    rcases List.mem_cons.mp h with h | h
    · subst h
      left
      rw [List.isPrefixOf_cons₂_self]
      exact nilIsPrefixOf rest
    · exact Or.inr (ih h)

/-- A prefix match extends across a longer haystack. -/
theorem isPrefixOfAppendLeft {p a : List Char} (b : List Char)
    (h : p.isPrefixOf a = true) : p.isPrefixOf (a ++ b) = true := by
  induction p generalizing a with
  | nil => exact nilIsPrefixOf (a ++ b)
  | cons c t ih =>
    cases a with
    | nil => cases h
    | cons x a2 =>
      rw [List.isPrefixOf_cons₂, Bool.and_eq_true] at h
      rw [List.cons_append, List.isPrefixOf_cons₂, Bool.and_eq_true]
      exact ⟨h.1, ih h.2⟩

/-- Splitting a list without the separator yields the single piece. -/
theorem splitCharLNoSep {sep : Char} : ∀ {l : List Char}, sep ∉ l →
    splitCharL sep l = [l] := by
  intro l
  induction l with
  | nil => intro _; rfl
  | cons c t ih =>
    intro h
    have hne : ¬ (c = sep) := fun he => h (List.mem_cons.mpr (Or.inl he.symm))
    rw [splitCharL, if_neg hne, ih (fun hm => h (List.mem_cons_of_mem c hm))]

/-- Splitting at the first separator occurrence. -/
theorem splitCharLAppend {sep : Char} : ∀ {a : List Char} (b : List Char), sep ∉ a →
    splitCharL sep (a ++ sep :: b) = a :: splitCharL sep b := by
  intro a
  induction a with
  | nil =>
    intro b _
    rw [List.nil_append, splitCharL, if_pos rfl]
  | cons c t ih =>
    intro b h
    have hne : ¬ (c = sep) := fun he => h (List.mem_cons.mpr (Or.inl he.symm))
    rw [List.cons_append, splitCharL, if_neg hne,
      ih b (fun hm => h (List.mem_cons_of_mem c hm))]

/-- `replaceL` fixes a list missing some pattern character. -/
theorem replaceLIdOfMiss {pat rep : List Char} {c : Char} (hc : c ∈ pat) :
    ∀ (fuel : Nat) {l : List Char}, c ∉ l → replaceL pat rep fuel l = l := by
  intro fuel
  induction fuel with
  | zero => intro l _; rfl
  | succ f ih =>
    intro l hl
    cases l with
    | nil => rfl
    | cons x t =>
      rw [replaceL, if_neg]
      · rw [ih (fun hm => hl (List.mem_cons_of_mem x hm))]
      · rintro ⟨hp, -⟩
        exact hl (memOfIsPrefixOf hp c hc)

/-- `replaceL` removes a leading pattern occurrence and keeps the remainder
when the remainder misses some pattern character. -/
theorem replaceLPrefix {pat : List Char} {c : Char} (hc : c ∈ pat) :
    ∀ (f : Nat) (d : List Char), c ∉ d →
      replaceL pat [] (f + 1) (pat ++ d) = d := by
  intro f d hd
  cases pat with
  | nil => cases hc
  | cons p0 pt =>
    rw [List.cons_append, replaceL,
      if_pos ⟨isPrefixOfAppendSelf (p0 :: pt) d, by simp⟩]
    rw [List.nil_append]
    have hdrop : List.drop ((p0 :: pt).length - 1) (pt ++ d) = d := by
      simp [List.drop_left]
    rw [hdrop]
    exact replaceLIdOfMiss hc f hd

/-- Characters with equal code points are equal. -/
theorem charEqOfToNat {c d : Char} (h : c.toNat = d.toNat) : c = d :=
  Char.eq_of_val_eq (UInt32.ext h)

/-- `Char.ofNat` below the surrogate range keeps the code point. -/
theorem charToNatOfNat {n : Nat} (h : n < 55296) : (Char.ofNat n).toNat = n := by
  have hv : n.isValidChar := Or.inl h
  rw [Char.ofNat, dif_pos hv]
  simp [Char.ofNatAux, Char.toNat, UInt32.toNat]

/-- A digit below ten renders as an ASCII digit with the matching code point. -/
theorem digitCharSpec (d : Nat) (h : d < 10) :
    isDigitC (Nat.digitChar d) = true ∧ (Nat.digitChar d).toNat = d + 48 := by
  interval_cases d <;> exact ⟨rfl, rfl⟩

/-- `Nat.toDigitsCore` unfolded one step. -/
theorem toDigitsCoreSucc (fuel n : Nat) (ds : List Char) :
    Nat.toDigitsCore 10 (fuel + 1) n ds =
      (if n / 10 = 0 then Nat.digitChar (n % 10) :: ds
       else Nat.toDigitsCore 10 fuel (n / 10) (Nat.digitChar (n % 10) :: ds)) := by
  rw [Nat.toDigitsCore]

/-- The accumulator of `Nat.toDigitsCore` is appended untouched. -/
theorem toDigitsCoreAcc : ∀ (fuel n : Nat) (ds : List Char),
    Nat.toDigitsCore 10 fuel n ds = Nat.toDigitsCore 10 fuel n [] ++ ds := by
  intro fuel
  induction fuel with
  | zero => intro n ds; rfl
  | succ f ih =>
    intro n ds
    rw [toDigitsCoreSucc, toDigitsCoreSucc]
    by_cases h : n / 10 = 0
    · rw [if_pos h, if_pos h]
      rfl
    · rw [if_neg h, if_neg h, ih (n / 10) (Nat.digitChar (n % 10) :: ds),
        ih (n / 10) [Nat.digitChar (n % 10)], List.append_assoc]
      rfl

/-- `digitsVal` of a list extended by one digit character. -/
theorem digitsValAppendSingle (l : List Char) (d : Char) :
    digitsVal (l ++ [d]) = digitsVal l * 10 + (d.toNat - 48) := by
  rw [digitsVal, List.foldl_append]
  rfl

/-- With enough fuel, `Nat.toDigitsCore` produces a non-empty all-digit list
whose decimal value is the input. -/
theorem toDigitsCoreSpec : ∀ (fuel n : Nat), n < fuel →
    Nat.toDigitsCore 10 fuel n [] ≠ [] ∧
    (Nat.toDigitsCore 10 fuel n []).all isDigitC = true ∧
    digitsVal (Nat.toDigitsCore 10 fuel n []) = n := by
  intro fuel
  induction fuel with
  | zero => intro n h; omega
  | succ f ih =>
    intro n h
    rw [toDigitsCoreSucc]
    have hd := digitCharSpec (n % 10) (Nat.mod_lt n (by norm_num))
    by_cases h0 : n / 10 = 0
    · rw [if_pos h0]
      have hn : n < 10 := by omega
      have hmod : n % 10 = n := Nat.mod_eq_of_lt hn
      refine ⟨by simp, by simp [hd.1], ?_⟩
      show 0 * 10 + ((Nat.digitChar (n % 10)).toNat - 48) = n
      rw [hd.2]
      omega
    · rw [if_neg h0, toDigitsCoreAcc]
      have hlt : n / 10 < f := by omega
      obtain ⟨hne, hall, hval⟩ := ih (n / 10) hlt
      refine ⟨by simp, ?_, ?_⟩
      · rw [List.all_append, hall]
        simp [hd.1]
      · rw [digitsValAppendSingle, hval, hd.2]
        omega

/-- The decimal rendering of a natural number, as a character list. -/
theorem natReprSpec (n : Nat) :
    (Nat.repr n).data ≠ [] ∧ ((Nat.repr n).data).all isDigitC = true ∧
    digitsVal ((Nat.repr n).data) = n := by
  show Nat.toDigitsCore 10 (n + 1) n [] ≠ [] ∧ _ ∧ _
  exact toDigitsCoreSpec (n + 1) n (Nat.lt_succ_self n)

/-- `pyStrip` fixes an all-digit string. -/
theorem pyStripDigits {l : List Char} (h : l.all isDigitC = true) :
    pyStrip ⟨l⟩ = ⟨l⟩ := by
  have hws : ∀ c ∈ l, isWsC c = false := fun c hc =>
    digit_not_ws (List.all_eq_true.mp h c hc)
  rw [pyStrip]
  show (⟨stripL (stripR l)⟩ : String) = _
  rw [stripREqSelfOfAll hws, stripLEqSelfOfAll hws]

/-- `int()` on the decimal rendering of a natural number returns it. -/
theorem pyIntNatRepr (n : Nat) : pyInt? (Nat.repr n) = some (n : Int) := by
  obtain ⟨hne, hall, hval⟩ := natReprSpec n
  have hstrip : pyStrip (Nat.repr n) = Nat.repr n := pyStripDigits hall
  cases hd : (Nat.repr n).data with
  | nil => exact absurd hd hne
  | cons c rest =>
    rw [hd] at hall hval
    have hc : isDigitC c = true := List.all_eq_true.mp hall c (List.mem_cons_self c rest)
    have hb := isDigitC_bounds hc
    have hcm : ¬ (c = '-') :=
      charNeOfToNat (by rw [show Char.toNat '-' = 45 from rfl]; omega)
    have hcp : ¬ (c = '+') :=
      charNeOfToNat (by rw [show Char.toNat '+' = 43 from rfl]; omega)
    simp only [pyInt?, hstrip, hd]
    rw [if_neg hcm, if_neg hcp, digitsVal?,
      if_pos (And.intro (List.cons_ne_nil c rest) hall)]
    simp [hval]

/-- `int()` fails on a non-empty string of ASCII letters. -/
theorem pyIntNoneOfLetters {l : List Char} (hne : l ≠ [])
    (h : ∀ c ∈ l, 65 ≤ c.toNat ∧ c.toNat ≤ 122) : pyInt? ⟨l⟩ = none := by
  have hws : ∀ c ∈ l, isWsC c = false := by
    intro c hc
    have hb := h c hc
    simp [isWsC]
    omega
  have hstrip : pyStrip ⟨l⟩ = ⟨l⟩ := by
    rw [pyStrip]
    show (⟨stripL (stripR l)⟩ : String) = _
    rw [stripREqSelfOfAll hws, stripLEqSelfOfAll hws]
  cases l with
  | nil => exact absurd rfl hne
  | cons c rest =>
    have hb := h c (List.mem_cons_self c rest)
    have hcm : ¬ (c = '-') :=
      charNeOfToNat (by rw [show Char.toNat '-' = 45 from rfl]; omega)
    have hcp : ¬ (c = '+') :=
      charNeOfToNat (by rw [show Char.toNat '+' = 43 from rfl]; omega)
    have hnd : isDigitC c = false := by
      simp [isDigitC]
      omega
    simp only [pyInt?, hstrip]
    rw [if_neg hcm, if_neg hcp, digitsVal?, if_neg]
    · rfl
    · rintro ⟨-, hall⟩
      rw [List.all_cons, hnd] at hall
      exact Bool.false_ne_true (by simpa using hall)

/-- A string with non-empty data is not the empty string. -/
theorem strNeEmptyOfData {d : List Char} (h : d ≠ []) : (⟨d⟩ : String) ≠ "" :=
  fun he => h (congrArg String.data he)

/-- Strings of different data lengths differ. -/
theorem strNeOfDataLength {d : List Char} {s : String}
    (h : d.length ≠ s.data.length) : (⟨d⟩ : String) ≠ s :=
  fun he => h (congrArg (fun t => t.data.length) he)

/-- `pyStrip` fixes a string with a stripped head part and a stripped tail part. -/
theorem pyStripFix {a mid b : List Char} (hL : stripL a = a) (ha : a ≠ [])
    (hR : stripR b = b) (hb : b ≠ []) :
    pyStrip ⟨a ++ mid ++ b⟩ = ⟨a ++ mid ++ b⟩ := by
  rw [pyStrip]
  show (⟨stripL (stripR (a ++ mid ++ b))⟩ : String) = _
  rw [stripRAppend hR hb, List.append_assoc, stripLAppend hL ha,
    ← List.append_assoc]

/-- Upper-casing a `BOOKED x `-prefixed string. -/
theorem pyUpperBookedX (l : List Char) :
    pyUpper ⟨"BOOKED x ".data ++ l⟩ = ⟨"BOOKED X ".data ++ l.map upperC⟩ := by
  rw [pyUpper]
  show (⟨("BOOKED x ".data ++ l).map upperC⟩ : String) = _
  rw [List.map_append, show ("BOOKED x ".data).map upperC = "BOOKED X ".data from by decide]

/-- Lower-casing a `BOOKED x `-prefixed string. -/
theorem pyLowerBookedX (l : List Char) :
    pyLower ⟨"BOOKED x ".data ++ l⟩ = ⟨"booked x ".data ++ l.map lowerC⟩ := by
  rw [pyLower]
  show (⟨("BOOKED x ".data ++ l).map lowerC⟩ : String) = _
  rw [List.map_append, show ("BOOKED x ".data).map lowerC = "booked x ".data from by decide]

/-- `str.replace` removes a leading `BOOKED X ` marker from a string whose tail
misses `X`. -/
theorem pyReplaceBookedXPrefix {l : List Char} (hX : 'X' ∉ l) :
    pyReplace ⟨"BOOKED X ".data ++ l⟩ "BOOKED X " "" = ⟨l⟩ := by
  rw [pyReplace]
  show (⟨replaceL ("BOOKED X ".data) []
    (("BOOKED X ".data ++ l).length + 1) ("BOOKED X ".data ++ l)⟩ : String) = ⟨l⟩
  rw [replaceLPrefix (show 'X' ∈ "BOOKED X ".data from by decide)
    ("BOOKED X ".data ++ l).length l hX]

/-- `str.replace` of the bold marker fixes a string without `(`. -/
theorem pyReplaceNoBoldId {s : String} (h : '(' ∉ s.data) :
    pyReplace s " (BOLD)" "" = s := by
  rw [pyReplace]
  show (⟨replaceL (" (BOLD)".data) [] (s.data.length + 1) s.data⟩ : String) = s
  rw [replaceLIdOfMiss (show '(' ∈ " (BOLD)".data from by decide) (s.data.length + 1) h]

/-- Incrementing a non-negative parsed count renders like the successor. -/
theorem intReprSucc (n : Nat) : ((n : Int) + 1).repr = Nat.repr (n + 1) := rfl

/-- Characters with code points in the printable band are not whitespace. -/
theorem wsFalseOfBand {l : List Char}
    (hcl : ∀ c ∈ l, 48 ≤ c.toNat ∧ c.toNat ≤ 122) :
    ∀ c ∈ l, isWsC c = false := by
  intro c hc
  have := hcl c hc
  simp [isWsC]
  omega

/-- The upper-cased `BOOKED X ` marker is a Boolean prefix of the upper-cased
cell. -/
theorem bookedXPrefix (l : List Char) :
    ("BOOKED X ".data).isPrefixOf
      (⟨"BOOKED X ".data ++ l⟩ : String).data = true :=
  isPrefixOfAppendSelf ("BOOKED X ".data) l

/-- The upper-cased cell is longer than the bare `BOOKED` token. -/
theorem bookedXNeBOOKED (l : List Char) :
    (⟨"BOOKED X ".data ++ l⟩ : String) ≠ "BOOKED" := by
  refine strNeOfDataLength ?_
  rw [List.length_append]
  show 9 + l.length ≠ 6
  omega

/-- `count_booked_events` on a `BOOKED x `-prefixed cell parses the upper-cased
tail. -/
theorem countBookedEventsAux {l : List Char} (hne : l ≠ [])
    (hcl : ∀ c ∈ l, 48 ≤ c.toNat ∧ c.toNat ≤ 122) (hX : 'X' ∉ l.map upperC) :
    count_booked_events ⟨"BOOKED x ".data ++ l⟩ =
      (match pyInt? ⟨l.map upperC⟩ with
       | some n => n
       | none => 0) := by
  have hstrip : pyStrip ⟨"BOOKED x ".data ++ l⟩ = ⟨"BOOKED x ".data ++ l⟩ :=
    pyStripAppend (by decide) (by decide) (wsFalseOfBand hcl) hne
  have hnil : ("BOOKED x ".data ++ l) ≠ [] := by simp
  rw [count_booked_events, hstrip, pyUpperBookedX,
    if_neg (strNeEmptyOfData hnil), if_neg (bookedXNeBOOKED (l.map upperC)),
    if_pos (bookedXPrefix (l.map upperC)), pyReplaceBookedXPrefix hX]

/-- `increment_booked` on a `BOOKED x `-prefixed cell re-renders the parsed
successor. -/
theorem incrementBookedAux {l : List Char} (hne : l ≠ [])
    (hcl : ∀ c ∈ l, 48 ≤ c.toNat ∧ c.toNat ≤ 122) (hX : 'X' ∉ l.map upperC) :
    increment_booked ⟨"BOOKED x ".data ++ l⟩ =
      (match pyInt? ⟨l.map upperC⟩ with
       | some n => "BOOKED x " ++ (n + 1).repr
       | none => "BOOKED x 2") := by
  have hstrip : pyStrip ⟨"BOOKED x ".data ++ l⟩ = ⟨"BOOKED x ".data ++ l⟩ :=
    pyStripAppend (by decide) (by decide) (wsFalseOfBand hcl) hne
  have hnil : ("BOOKED x ".data ++ l) ≠ [] := by simp
  rw [increment_booked, hstrip, pyUpperBookedX,
    if_neg (strNeEmptyOfData hnil), if_neg (bookedXNeBOOKED (l.map upperC)),
    if_pos (bookedXPrefix (l.map upperC)), pyReplaceBookedXPrefix hX]

/-- `incrementTbaBookedPart` on a `BOOKED X `-prefixed part re-renders the
parsed successor. -/
theorem incrementTbaBookedPartAux {l : List Char} (hX : 'X' ∉ l) :
    incrementTbaBookedPart ⟨"BOOKED X ".data ++ l⟩ =
      (match pyInt? ⟨l⟩ with
       | some n => "BOOKED x " ++ (n + 1).repr
       | none => "BOOKED x 2") := by
  rw [incrementTbaBookedPart, if_neg (bookedXNeBOOKED l),
    if_pos (bookedXPrefix l), pyReplaceBookedXPrefix hX]

/-- Splitting a lower-cased `booked x `-prefixed cell at `x`. -/
theorem splitBookedXAux {l : List Char} (hx : 'x' ∉ l) :
    splitCharL 'x' ("booked x ".data ++ l) = ["booked ".data, ' ' :: l] := by
  have hxs2 : ¬ ('x' ∈ ' ' :: l) := by
    intro hm
    rcases List.mem_cons.mp hm with h | h
    · exact absurd h (by decide)
    · exact hx h
  rw [show "booked x ".data ++ l = "booked ".data ++ 'x' :: (' ' :: l) from by
    rw [show "booked x ".data = "booked ".data ++ ['x', ' '] from by decide,
      List.append_assoc]
    rfl]
  rw [splitCharLAppend (' ' :: l) (by decide), splitCharLNoSep hxs2]

/-- `tbaEntryCount` on a `BOOKED x `-prefixed entry parses the tail, one
booking on parse failure. -/
theorem tbaEntryCountAux {l : List Char} (hne : l ≠ [])
    (hcl : ∀ c ∈ l, 48 ≤ c.toNat ∧ c.toNat ≤ 122) (hx : 'x' ∉ l)
    (hlow : ∀ c ∈ l, lowerC c = c) :
    tbaEntryCount ⟨"BOOKED x ".data ++ l⟩ =
      (match pyInt? ⟨l⟩ with
       | some m => m
       | none => 1) := by
  have hlower : pyLower ⟨"BOOKED x ".data ++ l⟩ = ⟨"booked x ".data ++ l⟩ := by
    rw [pyLowerBookedX, mapEqSelf hlow]
  have hb : hasSubS "booked" ⟨"booked x ".data ++ l⟩ = true :=
    hasSubLOfPrefix (isPrefixOfAppendLeft l (by decide))
  have hxs : hasSubS "x" ⟨"booked x ".data ++ l⟩ = true :=
    hasSubLSingleton (List.mem_append_left l (by decide))
  have hsplit2 : pySplitChar ⟨"booked x ".data ++ l⟩ 'x' =
      [⟨"booked ".data⟩, ⟨' ' :: l⟩] := by
    rw [pySplitChar]
    show (splitCharL 'x' ("booked x ".data ++ l)).map (fun t => (⟨t⟩ : String)) = _
    rw [splitBookedXAux hx]
    rfl
  have hstripsp : pyStrip ⟨' ' :: l⟩ = ⟨l⟩ :=
    pyStripSpace (wsFalseOfBand hcl) hne
  rw [tbaEntryCount, hlower, if_pos hb, if_pos hxs, hsplit2,
    show ([⟨"booked ".data⟩, ⟨' ' :: l⟩] : List String).getD 1 "" = ⟨' ' :: l⟩
      from rfl,
    hstripsp]

/-- Filtering non-`AAG` parts keeps a non-`AAG` head. -/
theorem filterNotAagCons (x : String) (t : List String)
    (h : ¬ pyUpper x = "AAG") :
    (x :: t).filter (fun p => ¬ pyUpper p = "AAG") =
      x :: t.filter (fun p => ¬ pyUpper p = "AAG") := by
  rw [List.filter_cons, if_pos (decide_eq_true h)]

/-- Filtering non-`AAG` parts drops an `AAG` head. -/
theorem filterNotAagConsDrop (x : String) (t : List String)
    (h : pyUpper x = "AAG") :
    (x :: t).filter (fun p => ¬ pyUpper p = "AAG") =
      t.filter (fun p => ¬ pyUpper p = "AAG") := by
  rw [List.filter_cons, if_neg]
  exact fun hc => (of_decide_eq_true hc) h

/-- Filtering `AAG` parts keeps an `AAG` head. -/
theorem filterAagConsPos (x : String) (t : List String)
    (h : pyUpper x = "AAG") :
    (x :: t).filter (fun p => pyUpper p = "AAG") =
      x :: t.filter (fun p => pyUpper p = "AAG") := by
  rw [List.filter_cons, if_pos (decide_eq_true h)]

/-- Filtering `AAG` parts drops a non-`AAG` head. -/
theorem filterAagConsDrop (x : String) (t : List String)
    (h : ¬ pyUpper x = "AAG") :
    (x :: t).filter (fun p => pyUpper p = "AAG") =
      t.filter (fun p => pyUpper p = "AAG") := by
  rw [List.filter_cons, if_neg]
  exact fun hc => h (of_decide_eq_true hc)

/-- No comma occurs in a `BOOKED x `-prefixed cell with a printable tail. -/
theorem commaNotMemBookedX {l : List Char}
    (hcl : ∀ c ∈ l, 48 ≤ c.toNat ∧ c.toNat ≤ 122) :
    ',' ∉ "BOOKED x ".data ++ l := by
  rw [List.mem_append]
  rintro (h | h)
  · exact absurd h (by decide)
  · have hb := hcl ',' h
    rw [show Char.toNat ',' = 44 from rfl] at hb
    omega

/-- Comma-splitting a `BOOKED x `-prefixed cell yields one piece. -/
theorem splitCommaBookedX {l : List Char}
    (hcl : ∀ c ∈ l, 48 ≤ c.toNat ∧ c.toNat ≤ 122) :
    pySplitChar ⟨"BOOKED x ".data ++ l⟩ ',' = [⟨"BOOKED x ".data ++ l⟩] := by
  rw [pySplitChar]
  show (splitCharL ',' ("BOOKED x ".data ++ l)).map (fun t => (⟨t⟩ : String)) = _
  rw [splitCharLNoSep (commaNotMemBookedX hcl)]
  rfl

/-- Comma-splitting a `BOOKED x `-prefixed cell with an `AAG` clause yields two
pieces. -/
theorem splitCommaBookedXAag {l : List Char}
    (hcl : ∀ c ∈ l, 48 ≤ c.toNat ∧ c.toNat ≤ 122) :
    pySplitChar ⟨("BOOKED x ".data ++ l) ++ ", AAG".data⟩ ',' =
      [⟨"BOOKED x ".data ++ l⟩, " AAG"] := by
  rw [pySplitChar]
  show (splitCharL ',' (("BOOKED x ".data ++ l) ++ ", AAG".data)).map
    (fun t => (⟨t⟩ : String)) = _
  rw [show (", AAG".data : List Char) = ',' :: " AAG".data from rfl,
    splitCharLAppend (" AAG".data) (commaNotMemBookedX hcl),
    show splitCharL ',' " AAG".data = [" AAG".data] from by decide]
  rfl

/-- `parse_tba_value` on a single `BOOKED x `-prefixed clause. -/
theorem parseTbaAuxSingle {l : List Char} (hne : l ≠ [])
    (hcl : ∀ c ∈ l, 48 ≤ c.toNat ∧ c.toNat ≤ 122) (hx : 'x' ∉ l)
    (hlow : ∀ c ∈ l, lowerC c = c) :
    parse_tba_value ⟨"BOOKED x ".data ++ l⟩ =
      (match pyInt? ⟨l⟩ with
       | some m => m
       | none => 1) := by
  have hstrip : pyStrip ⟨"BOOKED x ".data ++ l⟩ = ⟨"BOOKED x ".data ++ l⟩ :=
    pyStripAppend (by decide) (by decide) (wsFalseOfBand hcl) hne
  rw [parse_tba_value, splitCommaBookedX hcl, List.map_cons, List.map_nil,
    hstrip, List.map_cons, List.map_nil, tbaEntryCountAux hne hcl hx hlow]
  cases hpi : pyInt? ⟨l⟩ <;> simp

/-- `parse_tba_value` on a `BOOKED x `-prefixed clause followed by `AAG`. -/
theorem parseTbaAuxAag {l : List Char} (hne : l ≠ [])
    (hcl : ∀ c ∈ l, 48 ≤ c.toNat ∧ c.toNat ≤ 122) (hx : 'x' ∉ l)
    (hlow : ∀ c ∈ l, lowerC c = c) :
    parse_tba_value ⟨("BOOKED x ".data ++ l) ++ ", AAG".data⟩ =
      (match pyInt? ⟨l⟩ with
       | some m => m
       | none => 1) + 1 := by
  have hstrip : pyStrip ⟨"BOOKED x ".data ++ l⟩ = ⟨"BOOKED x ".data ++ l⟩ :=
    pyStripAppend (by decide) (by decide) (wsFalseOfBand hcl) hne
  have hmaps : ([⟨"BOOKED x ".data ++ l⟩, " AAG"] : List String).map pyStrip =
      [⟨"BOOKED x ".data ++ l⟩, "AAG"] := by
    rw [List.map_cons, List.map_cons, List.map_nil, hstrip,
      show pyStrip " AAG" = "AAG" from by decide]
  have hmapt : ([⟨"BOOKED x ".data ++ l⟩, "AAG"] : List String).map
      tbaEntryCount = [tbaEntryCount ⟨"BOOKED x ".data ++ l⟩, 1] := by
    rw [List.map_cons, List.map_cons, List.map_nil,
      show tbaEntryCount "AAG" = 1 from by decide]
  rw [parse_tba_value, splitCommaBookedXAag hcl, hmaps, hmapt,
    tbaEntryCountAux hne hcl hx hlow]
  cases hpi : pyInt? ⟨l⟩ <;> simp

/-- The upper-cased `BOOKED x `-prefixed cell is not the `AAG` token. -/
theorem bookedXUpperNeAag {l : List Char} :
    ¬ pyUpper ⟨"BOOKED x ".data ++ l⟩ = "AAG" := by
  rw [pyUpperBookedX]
  refine strNeOfDataLength ?_
  rw [List.length_append]
  show 9 + (l.map upperC).length ≠ 3
  omega

/-- `increment_tba` on a single `BOOKED x `-prefixed clause. -/
theorem incrementTbaAuxSingle {l : List Char} (hne : l ≠ [])
    (hcl : ∀ c ∈ l, 48 ≤ c.toNat ∧ c.toNat ≤ 122) (hX : 'X' ∉ l.map upperC) :
    increment_tba ⟨"BOOKED x ".data ++ l⟩ =
      (match pyInt? ⟨l.map upperC⟩ with
       | some n => "BOOKED x " ++ (n + 1).repr
       | none => "BOOKED x 2") := by
  have hstrip : pyStrip ⟨"BOOKED x ".data ++ l⟩ = ⟨"BOOKED x ".data ++ l⟩ :=
    pyStripAppend (by decide) (by decide) (wsFalseOfBand hcl) hne
  have hnil : ("BOOKED x ".data ++ l) ≠ [] := by simp
  rw [increment_tba, hstrip, if_neg (strNeEmptyOfData hnil),
    splitCommaBookedX hcl, List.map_cons, List.map_nil, hstrip,
    filterNotAagCons _ _ bookedXUpperNeAag, List.filter_nil,
    filterAagConsDrop _ _ bookedXUpperNeAag, List.filter_nil]
  show (if ([] : List String) ≠ [] then
      incrementTbaBookedPart (pyUpper (⟨"BOOKED x ".data ++ l⟩ : String)) ++
        ", " ++ joinCommaSpace []
    else incrementTbaBookedPart (pyUpper (⟨"BOOKED x ".data ++ l⟩ : String))) = _
  rw [if_neg (fun h => h rfl), pyUpperBookedX, incrementTbaBookedPartAux hX]

/-- `increment_tba` on a `BOOKED x `-prefixed clause followed by `AAG`. -/
theorem incrementTbaAuxAag {l : List Char} (hne : l ≠ [])
    (hcl : ∀ c ∈ l, 48 ≤ c.toNat ∧ c.toNat ≤ 122) (hX : 'X' ∉ l.map upperC) :
    increment_tba ⟨("BOOKED x ".data ++ l) ++ ", AAG".data⟩ =
      (match pyInt? ⟨l.map upperC⟩ with
       | some n => "BOOKED x " ++ (n + 1).repr
       | none => "BOOKED x 2") ++ ", " ++ "AAG" := by
  have hstrip : pyStrip ⟨"BOOKED x ".data ++ l⟩ = ⟨"BOOKED x ".data ++ l⟩ :=
    pyStripAppend (by decide) (by decide) (wsFalseOfBand hcl) hne
  have hstrip2 : pyStrip ⟨("BOOKED x ".data ++ l) ++ ", AAG".data⟩ =
      ⟨("BOOKED x ".data ++ l) ++ ", AAG".data⟩ :=
    pyStripFix (by decide) (by decide) (by decide) (by decide)
  have hnil2 : (("BOOKED x ".data ++ l) ++ ", AAG".data) ≠ [] := by simp
  have hmaps : ([⟨"BOOKED x ".data ++ l⟩, " AAG"] : List String).map pyStrip =
      [⟨"BOOKED x ".data ++ l⟩, "AAG"] := by
    rw [List.map_cons, List.map_cons, List.map_nil, hstrip,
      show pyStrip " AAG" = "AAG" from by decide]
  rw [increment_tba, hstrip2, if_neg (strNeEmptyOfData hnil2),
    splitCommaBookedXAag hcl, hmaps,
    filterNotAagCons _ _ bookedXUpperNeAag,
    filterNotAagConsDrop _ _ (show pyUpper "AAG" = "AAG" from by decide),
    List.filter_nil,
    filterAagConsDrop _ _ bookedXUpperNeAag,
    filterAagConsPos _ _ (show pyUpper "AAG" = "AAG" from by decide),
    List.filter_nil]
  show (if (["AAG"] : List String) ≠ [] then
      incrementTbaBookedPart (pyUpper (⟨"BOOKED x ".data ++ l⟩ : String)) ++
        ", " ++ joinCommaSpace ["AAG"]
    else incrementTbaBookedPart (pyUpper (⟨"BOOKED x ".data ++ l⟩ : String))) = _
  rw [if_pos (List.cons_ne_nil "AAG" []), pyUpperBookedX,
    incrementTbaBookedPartAux hX]
  rfl

/-- Decimal renderings sit in the printable character band. -/
theorem reprBand (n : Nat) :
    ∀ c ∈ (Nat.repr n).data, 48 ≤ c.toNat ∧ c.toNat ≤ 122 := by
  intro c hc
  have h := isDigitC_bounds (List.all_eq_true.mp (natReprSpec n).2.1 c hc)
  omega

/-- Decimal renderings contain no `x`. -/
theorem reprNoX (n : Nat) : 'x' ∉ (Nat.repr n).data := by
  intro hm
  have h := isDigitC_bounds (List.all_eq_true.mp (natReprSpec n).2.1 _ hm)
  rw [show Char.toNat 'x' = 120 from rfl] at h
  omega

/-- Lower-casing fixes decimal renderings. -/
theorem reprLowerFix (n : Nat) : ∀ c ∈ (Nat.repr n).data, lowerC c = c :=
  fun c hc => digit_lowerC (List.all_eq_true.mp (natReprSpec n).2.1 c hc)

/-- Upper-casing fixes decimal renderings. -/
theorem reprUpperMap (n : Nat) :
    ((Nat.repr n).data).map upperC = (Nat.repr n).data :=
  mapEqSelf (fun c hc => digit_upperC (List.all_eq_true.mp (natReprSpec n).2.1 c hc))

/-- Upper-cased decimal renderings contain no `X`. -/
theorem reprNoXUpper (n : Nat) : 'X' ∉ ((Nat.repr n).data).map upperC := by
  rw [reprUpperMap]
  intro hm
  have h := isDigitC_bounds (List.all_eq_true.mp (natReprSpec n).2.1 _ hm)
  rw [show Char.toNat 'X' = 88 from rfl] at h
  omega

/-- `int()` on a decimal rendering given as raw character data. -/
theorem pyIntReprData (n : Nat) : pyInt? ⟨(Nat.repr n).data⟩ = some (n : Int) :=
  pyIntNatRepr n

/-- `parse_tba_value` on `BOOKED x N` returns `N`. -/
theorem parseTbaBookedN (n : Nat) :
    parse_tba_value ("BOOKED x " ++ Nat.repr n) = (n : Int) := by
  show parse_tba_value ⟨"BOOKED x ".data ++ (Nat.repr n).data⟩ = (n : Int)
  rw [parseTbaAuxSingle (natReprSpec n).1 (reprBand n) (reprNoX n)
    (reprLowerFix n), pyIntReprData]

/-- `parse_tba_value` on `BOOKED x N, AAG` returns `N + 1`. -/
theorem parseTbaBookedNAag (n : Nat) :
    parse_tba_value ("BOOKED x " ++ Nat.repr n ++ ", AAG") = (n : Int) + 1 := by
  show parse_tba_value ⟨("BOOKED x ".data ++ (Nat.repr n).data) ++ ", AAG".data⟩ =
    (n : Int) + 1
  rw [parseTbaAuxAag (natReprSpec n).1 (reprBand n) (reprNoX n)
    (reprLowerFix n), pyIntReprData]

/-- `increment_tba` on `BOOKED x N` returns `BOOKED x (N+1)`. -/
theorem incrementTbaBookedN (n : Nat) :
    increment_tba ("BOOKED x " ++ Nat.repr n) = "BOOKED x " ++ Nat.repr (n + 1) := by
  show increment_tba ⟨"BOOKED x ".data ++ (Nat.repr n).data⟩ = _
  rw [incrementTbaAuxSingle (natReprSpec n).1 (reprBand n) (reprNoXUpper n),
    reprUpperMap, pyIntReprData]
  show "BOOKED x " ++ ((n : Int) + 1).repr = _
  rw [intReprSucc]

/-- `increment_tba` on `BOOKED x N, AAG` returns `BOOKED x (N+1), AAG`. -/
theorem incrementTbaBookedNAag (n : Nat) :
    increment_tba ("BOOKED x " ++ Nat.repr n ++ ", AAG") =
      "BOOKED x " ++ Nat.repr (n + 1) ++ ", AAG" := by
  show increment_tba
    ⟨("BOOKED x ".data ++ (Nat.repr n).data) ++ ", AAG".data⟩ = _
  rw [incrementTbaAuxAag (natReprSpec n).1 (reprBand n) (reprNoXUpper n),
    reprUpperMap, pyIntReprData]
  show ("BOOKED x " ++ ((n : Int) + 1).repr) ++ ", " ++ "AAG" = _
  rw [intReprSucc]
  apply String.ext
  simp [List.append_assoc]

/-- `count_booked_events` on `BOOKED x N` returns `N`. -/
theorem countBookedN (n : Nat) :
    count_booked_events ("BOOKED x " ++ Nat.repr n) = (n : Int) := by
  show count_booked_events ⟨"BOOKED x ".data ++ (Nat.repr n).data⟩ = (n : Int)
  rw [countBookedEventsAux (natReprSpec n).1 (reprBand n) (reprNoXUpper n),
    reprUpperMap, pyIntReprData]

/-- `increment_booked` on `BOOKED x N` returns `BOOKED x (N+1)`. -/
theorem incrementBookedN (n : Nat) :
    increment_booked ("BOOKED x " ++ Nat.repr n) =
      "BOOKED x " ++ Nat.repr (n + 1) := by
  show increment_booked ⟨"BOOKED x ".data ++ (Nat.repr n).data⟩ = _
  rw [incrementBookedAux (natReprSpec n).1 (reprBand n) (reprNoXUpper n),
    reprUpperMap, pyIntReprData]
  show "BOOKED x " ++ ((n : Int) + 1).repr = _
  rw [intReprSucc]

/-- C6: Round-trip: for every valid TBA-style cell value x (blank, `BOOKED`,
`BOOKED x N` with positive integer N, each optionally combined with an `AAG`
part), `parse_tba_value (increment_tba x) = parse_tba_value x + 1`, and
equivalently `count_booked_events (increment_booked x) =
count_booked_events x + 1` for every x that is blank, `BOOKED`, or
`BOOKED x N`. -/
theorem C6_tba_round_trip (n : Nat) (h : 1 ≤ n) :
    parse_tba_value (increment_tba "") = parse_tba_value "" + 1 ∧
    parse_tba_value (increment_tba "BOOKED") = parse_tba_value "BOOKED" + 1 ∧
    parse_tba_value (increment_tba "AAG") = parse_tba_value "AAG" + 1 ∧
    parse_tba_value (increment_tba "BOOKED, AAG") =
      parse_tba_value "BOOKED, AAG" + 1 ∧
    parse_tba_value (increment_tba ("BOOKED x " ++ Nat.repr n)) =
      parse_tba_value ("BOOKED x " ++ Nat.repr n) + 1 ∧
    parse_tba_value (increment_tba ("BOOKED x " ++ Nat.repr n ++ ", AAG")) =
      parse_tba_value ("BOOKED x " ++ Nat.repr n ++ ", AAG") + 1 ∧
    count_booked_events (increment_booked "") = count_booked_events "" + 1 ∧
    count_booked_events (increment_booked "BOOKED") =
      count_booked_events "BOOKED" + 1 ∧
    count_booked_events (increment_booked ("BOOKED x " ++ Nat.repr n)) =
      count_booked_events ("BOOKED x " ++ Nat.repr n) + 1 := by
  refine ⟨by decide, by decide, by decide, by decide, ?_, ?_, by decide,
    by decide, ?_⟩
  · rw [incrementTbaBookedN, parseTbaBookedN, parseTbaBookedN]
    omega
  · rw [incrementTbaBookedNAag, parseTbaBookedNAag, parseTbaBookedNAag]
    omega
  · rw [incrementBookedN, countBookedN, countBookedN]
    omega

/-- Witness for C6 at N = 2. -/
theorem C6_tba_round_trip_witness :
    1 ≤ 2 ∧
    (parse_tba_value (increment_tba "") = parse_tba_value "" + 1 ∧
     parse_tba_value (increment_tba "BOOKED") = parse_tba_value "BOOKED" + 1 ∧
     parse_tba_value (increment_tba "AAG") = parse_tba_value "AAG" + 1 ∧
     parse_tba_value (increment_tba "BOOKED, AAG") =
       parse_tba_value "BOOKED, AAG" + 1 ∧
     parse_tba_value (increment_tba ("BOOKED x " ++ Nat.repr 2)) =
       parse_tba_value ("BOOKED x " ++ Nat.repr 2) + 1 ∧
     parse_tba_value (increment_tba ("BOOKED x " ++ Nat.repr 2 ++ ", AAG")) =
       parse_tba_value ("BOOKED x " ++ Nat.repr 2 ++ ", AAG") + 1 ∧
     count_booked_events (increment_booked "") = count_booked_events "" + 1 ∧
     count_booked_events (increment_booked "BOOKED") =
       count_booked_events "BOOKED" + 1 ∧
     count_booked_events (increment_booked ("BOOKED x " ++ Nat.repr 2)) =
       count_booked_events ("BOOKED x " ++ Nat.repr 2) + 1) :=
  ⟨by decide, C6_tba_round_trip 2 (by decide)⟩

/-- Lower-casing fixes lowercase ASCII letters. -/
theorem lowerLetterFix {c : Char} (h : 97 ≤ c.toNat ∧ c.toNat ≤ 122) :
    lowerC c = c := by
  rw [lowerC, if_neg]
  omega

/-- Upper-casing a lowercase ASCII letter shifts its code point down by 32. -/
theorem upperLetterToNat {c : Char} (h : 97 ≤ c.toNat ∧ c.toNat ≤ 122) :
    (upperC c).toNat = c.toNat - 32 := by
  rw [upperC, if_pos h]
  exact charToNatOfNat (by omega)

/-- C7: for a cell `BOOKED x N` whose `N` (a non-empty lowercase word without
`x`) fails to parse as an integer, `analyze_availability` counts the cell as 1
TBA booking (and 1 booked), while `count_booked_events` — used by the write
protocol's validation — returns 0, not 1. -/
theorem C7_tba_parse_failure (j : String) (dw : Option Nat) (yr : Option String)
    (hne : j.data ≠ []) (hab : ∀ c ∈ j.data, 97 ≤ c.toNat ∧ c.toNat ≤ 122)
    (hx : 'x' ∉ j.data) :
    (analyze_availability [("TBA", "BOOKED x " ++ j)] dw yr).tbaBookings = 1 ∧
    (analyze_availability [("TBA", "BOOKED x " ++ j)] dw yr).bookedCount = 1 ∧
    count_booked_events ("BOOKED x " ++ j) = 0 := by
  have hcl : ∀ c ∈ j.data, 48 ≤ c.toNat ∧ c.toNat ≤ 122 := by
    intro c hc
    have := hab c hc
    omega
  have hlow : ∀ c ∈ j.data, lowerC c = c := fun c hc => lowerLetterFix (hab c hc)
  have hXmap : 'X' ∉ j.data.map upperC := by
    intro hm
    rcases List.mem_map.mp hm with ⟨c, hc, hEq⟩
    have ht : (upperC c).toNat = c.toNat - 32 := upperLetterToNat (hab c hc)
    rw [hEq, show Char.toNat 'X' = 88 from rfl] at ht
    have hb := hab c hc
    have hcx : c = 'x' :=
      charEqOfToNat (by rw [show Char.toNat 'x' = 120 from rfl]; omega)
    exact hx (hcx ▸ hc)
  have hint : pyInt? ⟨j.data⟩ = none :=
    pyIntNoneOfLetters hne
      (fun c hc => ⟨by have := (hab c hc).1; omega, (hab c hc).2⟩)
  have hintU : pyInt? ⟨j.data.map upperC⟩ = none := by
    refine pyIntNoneOfLetters (fun hmn => hne (by simpa using hmn)) ?_
    intro c hc
    rcases List.mem_map.mp hc with ⟨d, hd, hEq⟩
    have ht : (upperC d).toNat = d.toNat - 32 := upperLetterToNat (hab d hd)
    have hb := hab d hd
    rw [← hEq, ht]
    omega
  have hmk : ("BOOKED x " ++ j) = ⟨"BOOKED x ".data ++ j.data⟩ := rfl
  have hcount : count_booked_events ("BOOKED x " ++ j) = 0 := by
    rw [hmk, countBookedEventsAux hne hcl hXmap, hintU]
  have hlower : pyLower ⟨"BOOKED x ".data ++ j.data⟩ =
      ⟨"booked x ".data ++ j.data⟩ := by
    rw [pyLowerBookedX, mapEqSelf hlow]
  have hparen : '(' ∉ ("BOOKED x ".data ++ j.data) := by
    rw [List.mem_append]
    rintro (h | h)
    · exact absurd h (by decide)
    · have := hab '(' h
      rw [show Char.toNat '(' = 40 from rfl] at this
      omega
  have hrep : pyReplace ⟨"BOOKED x ".data ++ j.data⟩ " (BOLD)" "" =
      ⟨"BOOKED x ".data ++ j.data⟩ := pyReplaceNoBoldId hparen
  have hbook : hasSubS "booked" ⟨"booked x ".data ++ j.data⟩ = true :=
    hasSubLOfPrefix (isPrefixOfAppendLeft j.data (by decide))
  have hstripj : pyStrip ⟨"BOOKED x ".data ++ j.data⟩ =
      ⟨"BOOKED x ".data ++ j.data⟩ :=
    pyStripAppend (by decide) (by decide) (wsFalseOfBand hcl) hne
  have hstep : firstPassStep ⟨0, 0, false⟩
      ("TBA", (⟨"BOOKED x ".data ++ j.data⟩ : String)) = ⟨1, 1, false⟩ := by
    rw [firstPassStep,
      show (("TBA", (⟨"BOOKED x ".data ++ j.data⟩ : String))).1 = "TBA"
        from rfl,
      show (("TBA", (⟨"BOOKED x ".data ++ j.data⟩ : String))).2 =
        ⟨"BOOKED x ".data ++ j.data⟩ from rfl,
      hrep, hlower, if_neg (show ¬ ("TBA" = "Date") from by decide),
      if_neg (fun hco => absurd hco.1 (show ¬ ("TBA" = "AAG") from by decide)),
      if_neg (fun hco => absurd hco.1
        (show ¬ ("TBA" = "Stephanie") from by decide)),
      if_pos (And.intro rfl (Or.inl hbook)),
      splitCommaBookedX hcl, List.map_cons, List.map_nil, hstripj,
      List.map_cons, List.map_nil, tbaEntryCountAux hne hcl hx hlow, hint]
    decide
  have hfold : List.foldl firstPassStep ⟨0, 0, false⟩
      [("TBA", "BOOKED x " ++ j)] = ⟨1, 1, false⟩ := by
    rw [List.foldl_cons, List.foldl_nil, hmk, hstep]
  refine ⟨?_, ?_, hcount⟩
  · simp only [analyze_availability]
    rw [hfold]
  · simp only [analyze_availability]
    rw [hfold]

/-- Witness for C7 with the junk count `two`. -/
theorem C7_tba_parse_failure_witness :
    ("two" : String).data ≠ [] ∧
    (∀ c ∈ ("two" : String).data, 97 ≤ c.toNat ∧ c.toNat ≤ 122) ∧
    'x' ∉ ("two" : String).data ∧
    ((analyze_availability [("TBA", "BOOKED x " ++ "two")] (some 5)
        (some "2026")).tbaBookings = 1 ∧
     (analyze_availability [("TBA", "BOOKED x " ++ "two")] (some 5)
        (some "2026")).bookedCount = 1 ∧
     count_booked_events ("BOOKED x " ++ "two") = 0) :=
  ⟨by decide, by decide, by decide,
   C7_tba_parse_failure "two" (some 5) (some "2026") (by decide) (by decide)
     (by decide)⟩

/-- Counterexample for C7: the analyzer counts `BOOKED x two` as one TBA
booking, but `count_booked_events` returns 0, not the claimed 1. -/
theorem C7_counterexample :
    (analyze_availability [("TBA", "BOOKED x two")] none
      (some "2026")).tbaBookings = 1 ∧
    count_booked_events "BOOKED x two" = 0 ∧
    ¬ count_booked_events "BOOKED x two" = 1 := by decide
